import Mathlib

/-!
Verification of the grid-builder layout engine.

This file shallow-embeds the TypeScript source of the grid builder
(`src/lib/grid.ts`, `src/hooks/useHistory.ts`, `src/hooks/useGridState.ts`,
`src/components/PreviewCanvas.tsx`, `src/App.tsx`) into Lean and proves the
specification's testable properties about the embedded definitions.

Modelling conventions:
* JavaScript numbers are modelled as `ℚ` (ids, spans, pixel sizes) or `ℤ`
  (grid counts, gaps, which are integral in this application); overflow and
  floating-point rounding are not modelled.
* JavaScript strings are Lean `String`s.  `Number(s)` coercion is modelled by
  `jsToNumber` on the decimal-numeral fragment (optional sign, digits,
  optional fractional part, surrounding whitespace); every string outside
  that fragment is mapped to `none`, standing for `NaN`.
* Absent object fields (`undefined`) are modelled with `Option`.
* Reference identity (`===` on objects) is modelled as value equality.
-/

/-! ## JavaScript number coercion -/

/-- Numeric value of a decimal digit character. -/
def digitVal (c : Char) : ℕ := c.toNat - 48

/-- Value of a nonempty digit string read in base 10. -/
def natFromDigits (cs : List Char) : ℕ :=
  cs.foldl (fun a c => a * 10 + digitVal c) 0

/-- Decode an unsigned decimal numeral `digits [. digits]` (at least one digit
overall), as accepted by JavaScript `Number()`.  Returns `none` when the
character list is not of that shape.  The value `int.frac` is expressed with
`mkRat` as `(int * 10 ^ |frac| + frac) / 10 ^ |frac|`. -/
def decodeDecimal (cs : List Char) : Option ℚ :=
  let intPart := cs.takeWhile (·.isDigit)
  let rest := cs.dropWhile (·.isDigit)
  match rest with
  | [] => if intPart.isEmpty then none else some (mkRat (natFromDigits intPart) 1)
  | '.' :: frac =>
      if frac.all (·.isDigit) && !(intPart.isEmpty && frac.isEmpty) then
        some (mkRat (natFromDigits intPart * 10 ^ frac.length + natFromDigits frac)
          (10 ^ frac.length))
      else none
  | _ => none

/-- Whitespace trimming on a character list (JavaScript trims the surrounding
whitespace of a string before numeric conversion). -/
def trimChars (cs : List Char) : List Char :=
  ((cs.dropWhile Char.isWhitespace).reverse.dropWhile Char.isWhitespace).reverse

/-- Model of JavaScript `Number(s)` on strings: whitespace is trimmed, the
empty string is `0`, an optionally signed decimal numeral is its value, and
everything else is `NaN`, encoded as `none`.  (Hexadecimal, exponent and
`Infinity` forms are outside the fragment used by this application and are
mapped to `none`.) -/
def jsToNumber (s : String) : Option ℚ :=
  match trimChars s.toList with
  | [] => some 0
  | '+' :: rest => decodeDecimal rest
  | '-' :: rest => (decodeDecimal rest).map (fun q => -q)
  | cs => decodeDecimal cs

/-! ## Breakpoints (src/lib/constants.ts) -/

/-- The six responsive breakpoints, in cascade order. -/
inductive Breakpoint where
  | xs | sm | md | lg | xl | x2l
deriving DecidableEq, Repr

/-- `BREAKPOINT_ORDER` from src/lib/constants.ts. -/
def BREAKPOINT_ORDER : List Breakpoint :=
  [.xs, .sm, .md, .lg, .xl, .x2l]

/-! ## Layout data model (src/lib/types.ts, src/lib/grid.ts) -/

/-- `ItemLayout`: positional fields are strings (numeric string or `"auto"`),
spans are numbers. -/
structure ItemLayout where
  colStart : String
  colEnd : String
  rowStart : String
  rowEnd : String
  colSpan : ℚ
  rowSpan : ℚ
  order : String
deriving DecidableEq, Repr

/-- `LayoutMap`: one `ItemLayout` per breakpoint.  The TS `Record` is
modelled as a six-field structure. -/
structure LayoutMap where
  xs : ItemLayout
  sm : ItemLayout
  md : ItemLayout
  lg : ItemLayout
  xl : ItemLayout
  x2l : ItemLayout
deriving DecidableEq, Repr

/-- Read the entry of a `LayoutMap` at a breakpoint (`map[bp]`). -/
def LayoutMap.get (m : LayoutMap) : Breakpoint → ItemLayout
  | .xs => m.xs
  | .sm => m.sm
  | .md => m.md
  | .lg => m.lg
  | .xl => m.xl
  | .x2l => m.x2l

/-- Replace the entry of a `LayoutMap` at a breakpoint (`map[bp] = v`). -/
def LayoutMap.set (m : LayoutMap) (bp : Breakpoint) (v : ItemLayout) : LayoutMap :=
  match bp with
  | .xs => { m with xs := v }
  | .sm => { m with sm := v }
  | .md => { m with md := v }
  | .lg => { m with lg := v }
  | .xl => { m with xl := v }
  | .x2l => { m with x2l := v }

/-- `isAuto` from src/lib/grid.ts: `value === '' || value === 'auto'`. -/
def isAuto (value : String) : Bool :=
  value == "" || value == "auto"

/-- `createEmptyLayout` from src/lib/grid.ts. -/
def createEmptyLayout : ItemLayout :=
  { colStart := "auto", colEnd := "auto", rowStart := "auto", rowEnd := "auto"
    colSpan := 1, rowSpan := 1, order := "auto" }

/-- `createLayoutMap` from src/lib/grid.ts: an empty layout for every
breakpoint of `BREAKPOINT_ORDER`. -/
def createLayoutMap : LayoutMap :=
  { xs := createEmptyLayout, sm := createEmptyLayout, md := createEmptyLayout
    lg := createEmptyLayout, xl := createEmptyLayout, x2l := createEmptyLayout }

/-- `cloneLayoutMap` from src/lib/grid.ts.  The TS function builds a fresh
object with the same field values per breakpoint; with value semantics this
is the identity. -/
def cloneLayoutMap (layout : LayoutMap) : LayoutMap := layout

/-- A partially-shaped `ItemLayout` as it may arrive from untrusted import
data: every field may be absent. -/
structure PartialItemLayout where
  colStart : Option String := none
  colEnd : Option String := none
  rowStart : Option String := none
  rowEnd : Option String := none
  colSpan : Option ℚ := none
  rowSpan : Option ℚ := none
  order : Option String := none
deriving DecidableEq, Repr

/-- A partially-shaped `LayoutMap`: every breakpoint entry may be absent. -/
structure PartialLayoutMap where
  xs : Option PartialItemLayout := none
  sm : Option PartialItemLayout := none
  md : Option PartialItemLayout := none
  lg : Option PartialItemLayout := none
  xl : Option PartialItemLayout := none
  x2l : Option PartialItemLayout := none
deriving DecidableEq, Repr

/-- The object-spread `{...base, ...partial}`: fields present in `partial`
override those of `base`. -/
def mergeLayout (base : ItemLayout) (p : PartialItemLayout) : ItemLayout :=
  { colStart := p.colStart.getD base.colStart
    colEnd := p.colEnd.getD base.colEnd
    rowStart := p.rowStart.getD base.rowStart
    rowEnd := p.rowEnd.getD base.rowEnd
    colSpan := p.colSpan.getD base.colSpan
    rowSpan := p.rowSpan.getD base.rowSpan
    order := p.order.getD base.order }

/-- One breakpoint entry of `sanitizeLayoutMap`: a present entry is spread
over the defaults, an absent one keeps the defaults. -/
def sanitizeEntry (p : Option PartialItemLayout) : ItemLayout :=
  match p with
  | none => createEmptyLayout
  | some q => mergeLayout createEmptyLayout q

/-- `sanitizeLayoutMap` from src/lib/grid.ts: start from `createLayoutMap()`
and, for every breakpoint whose entry is present in the (possibly absent)
input, spread that entry over the defaults. -/
def sanitizeLayoutMap (layout : Option PartialLayoutMap) : LayoutMap :=
  match layout with
  | none => createLayoutMap
  | some pm =>
      { xs := sanitizeEntry pm.xs, sm := sanitizeEntry pm.sm, md := sanitizeEntry pm.md
        lg := sanitizeEntry pm.lg, xl := sanitizeEntry pm.xl, x2l := sanitizeEntry pm.x2l }

/-! ## Effective span (src/lib/grid.ts `getSpan`) -/

/-- The two grid axes. -/
inductive Axis where
  | col | row
deriving DecidableEq, Repr

/-- The start-line field selected by `getSpan`'s `axis` argument. -/
def startField (layout : ItemLayout) : Axis → String
  | .col => layout.colStart
  | .row => layout.rowStart

/-- The end-line field selected by `getSpan`'s `axis` argument. -/
def endField (layout : ItemLayout) : Axis → String
  | .col => layout.colEnd
  | .row => layout.rowEnd

/-- The span field selected by `getSpan`'s `axis` argument. -/
def spanField (layout : ItemLayout) : Axis → ℚ
  | .col => layout.colSpan
  | .row => layout.rowSpan

/-- `getSpan` from src/lib/grid.ts: when both the start and the end line are
non-auto, the span is `Number(end) - Number(start)`, coerced to `1` when that
difference is `NaN` or below `1`; otherwise the explicit span field. -/
def getSpan (layout : ItemLayout) (axis : Axis) : ℚ :=
  if !(isAuto (startField layout axis)) && !(isAuto (endField layout axis)) then
    match jsToNumber (endField layout axis), jsToNumber (startField layout axis) with
    | some e, some s => if e - s < 1 then 1 else e - s
    | _, _ => 1
  else spanField layout axis

/-! ## Claim C1: effective span -/

/-- C1 (counterexample to the claim as stated).  The layout with
`colStart = "x"`, `colEnd = "5"`, `colSpan = 7` has both column lines
non-auto, but `colStart` is not a numeric string; the claim's "otherwise"
branch predicts `getSpan = colSpan = 7`, while the code coerces the `NaN`
difference to `1`. -/
theorem getSpan_claim_fails_on_nonnumeric :
    isAuto "x" = false ∧ isAuto "5" = false ∧ jsToNumber "x" = none ∧
    getSpan { colStart := "x", colEnd := "5", rowStart := "auto", rowEnd := "auto",
              colSpan := 7, rowSpan := 1, order := "auto" } .col = 1 ∧
    ¬ ((1 : ℚ) = 7) := by
  refine ⟨by decide, by decide, by decide, by decide, by norm_num⟩

/-- C1 (amended).  For every `ItemLayout` and axis: if the start or the end
line is auto, `getSpan` returns the explicit span field; otherwise, if both
lines are numeric strings it returns `max 1 (Number(end) - Number(start))`,
and if either fails to parse (a `NaN` difference) it returns `1`. -/
theorem getSpan_effective_span (layout : ItemLayout) (axis : Axis) :
    getSpan layout axis =
      if isAuto (startField layout axis) || isAuto (endField layout axis) then
        spanField layout axis
      else
        match jsToNumber (endField layout axis), jsToNumber (startField layout axis) with
        | some e, some s => max 1 (e - s)
        | _, _ => 1 := by
  unfold getSpan
  cases h1 : isAuto (startField layout axis) <;>
    cases h2 : isAuto (endField layout axis) <;> simp [h1, h2]
  cases jsToNumber (endField layout axis) <;>
    cases jsToNumber (startField layout axis) <;> simp
  rename_i e s
  rcases lt_or_le (e - s) 1 with h | h
  · rw [if_pos h, max_eq_left h.le]
  · rw [if_neg (not_lt.mpr h), max_eq_right h]

/-! ## Claim C7: sanitize is total over absent and partial input -/

/-- C7.  `sanitizeLayoutMap` of an absent map yields the full default map
(all six breakpoints present, all fields defaulted), and for a partial input
carrying only `xs.colSpan = v` the result overrides exactly that field of the
`xs` entry, keeping every other field and breakpoint at its default. -/
theorem sanitizeLayoutMap_totality :
    sanitizeLayoutMap none = createLayoutMap ∧
    ∀ v : ℚ,
      sanitizeLayoutMap (some { xs := some { colSpan := some v } }) =
        { createLayoutMap with xs := { createEmptyLayout with colSpan := v } } :=
  ⟨rfl, fun _ => rfl⟩

/-! ## History engine (src/hooks/useHistory.ts) -/

/-- `HistoryState<T>` from src/hooks/useHistory.ts. -/
structure HistoryState (α : Type) where
  past : List α
  present : α
  future : List α
deriving DecidableEq, Repr

/-- `HistoryAction<T>` from src/hooks/useHistory.ts. -/
inductive HistoryAction (α : Type) where
  | undo
  | redo
  | set (newPresent : α)
  | reset (newPresent : α)
deriving DecidableEq, Repr

/-- `historyReducer` from src/hooks/useHistory.ts.  The `===` identity test
of the `SET` case is modelled as value equality. -/
def historyReducer {α : Type} [DecidableEq α]
    (state : HistoryState α) (action : HistoryAction α) : HistoryState α :=
  match action with
  | .undo =>
      match state.past.getLast? with
      | none => state
      | some previous =>
          { past := state.past.dropLast, present := previous
            future := state.present :: state.future }
  | .redo =>
      match state.future with
      | [] => state
      | next :: newFuture =>
          { past := state.past ++ [state.present], present := next, future := newFuture }
  | .set newPresent =>
      if newPresent = state.present then state
      else { past := state.past ++ [state.present], present := newPresent, future := [] }
  | .reset newPresent =>
      { past := [], present := newPresent, future := [] }

/-- C4.  History laws: from present `A`, `set B` (with `B ≠ A`) followed by
`undo` restores present `A` with `B` at the front of `future`; `redo` then
returns to the post-`set` state; `set X` (with `X` distinct from present)
always leaves `future` empty; and `set` of the current present is a no-op. -/
theorem historyReducer_laws {α : Type} [DecidableEq α]
    (s : HistoryState α) (b x : α) :
    (b ≠ s.present →
      historyReducer (historyReducer s (.set b)) .undo =
        { past := s.past, present := s.present, future := [b] } ∧
      historyReducer (historyReducer (historyReducer s (.set b)) .undo) .redo =
        historyReducer s (.set b)) ∧
    (x ≠ s.present → (historyReducer s (.set x)).future = []) ∧
    historyReducer s (.set s.present) = s := by
  refine ⟨fun hb => ?_, fun hx => ?_, ?_⟩
  · have hset : historyReducer s (.set b) =
        { past := s.past ++ [s.present], present := b, future := [] } := by
      simp [historyReducer, hb]
    have hundo : historyReducer (historyReducer s (.set b)) .undo =
        { past := s.past, present := s.present, future := [b] } := by
      rw [hset]
      simp [historyReducer, List.getLast?_concat, List.dropLast_concat]
    refine ⟨hundo, ?_⟩
    rw [hundo, hset]
    simp [historyReducer]
  · simp [historyReducer, hx]
  · simp [historyReducer]

/-- C4 witness: the laws at the concrete history state `⟨[], 0, []⟩` with
`B = 1`, `X = 2`. -/
theorem historyReducer_laws_witness :
    historyReducer (historyReducer (⟨[], 0, []⟩ : HistoryState ℕ) (.set 1)) .undo =
      ⟨[], 0, [1]⟩ ∧
    historyReducer (historyReducer (historyReducer (⟨[], 0, []⟩ : HistoryState ℕ)
        (.set 1)) .undo) .redo =
      historyReducer (⟨[], 0, []⟩ : HistoryState ℕ) (.set 1) ∧
    (historyReducer (⟨[], 0, []⟩ : HistoryState ℕ) (.set 2)).future = [] ∧
    historyReducer (⟨[], 0, []⟩ : HistoryState ℕ) (.set 0) = ⟨[], 0, []⟩ := by
  have h := historyReducer_laws (⟨[], 0, []⟩ : HistoryState ℕ) 1 2
  exact ⟨(h.1 (by decide)).1, (h.1 (by decide)).2, h.2.1 (by decide), h.2.2⟩

/-! ## Grid settings (src/lib/types.ts, src/lib/constants.ts, useGridState) -/

/-- `TrackUnit` from src/lib/types.ts. -/
inductive TrackUnit where
  | fr | px | rem | percent | auto | minContent | maxContent
deriving DecidableEq, Repr

/-- `Track`: one sized unit along one axis. -/
structure Track where
  id : String
  value : ℚ
  unit : TrackUnit
deriving DecidableEq, Repr

/-- `GridSetting`: per-breakpoint grid configuration.  `cols`, `rows` and
`gap` are JavaScript numbers that are integral in this application, modelled
as `ℤ`. -/
structure GridSetting where
  cols : ℤ
  rows : ℤ
  colTracks : List Track
  rowTracks : List Track
  gap : ℤ
deriving DecidableEq, Repr

/-- `GridSettingsMap`: one `GridSetting` per breakpoint. -/
structure GridSettingsMap where
  xs : GridSetting
  sm : GridSetting
  md : GridSetting
  lg : GridSetting
  xl : GridSetting
  x2l : GridSetting
deriving DecidableEq, Repr

/-- Read the entry of a `GridSettingsMap` at a breakpoint. -/
def GridSettingsMap.get (m : GridSettingsMap) : Breakpoint → GridSetting
  | .xs => m.xs
  | .sm => m.sm
  | .md => m.md
  | .lg => m.lg
  | .xl => m.xl
  | .x2l => m.x2l

/-- Replace the entry of a `GridSettingsMap` at a breakpoint. -/
def GridSettingsMap.set (m : GridSettingsMap) (bp : Breakpoint) (v : GridSetting) :
    GridSettingsMap :=
  match bp with
  | .xs => { m with xs := v }
  | .sm => { m with sm := v }
  | .md => { m with md := v }
  | .lg => { m with lg := v }
  | .xl => { m with xl := v }
  | .x2l => { m with x2l := v }

/-- `createTracks` from src/lib/constants.ts: `n` default `1fr` tracks.  The
`Date.now()`-based id strings are opaque uniqueness tokens; they are modelled
by the index. -/
def createTracks (n : ℕ) : List Track :=
  (List.range n).map (fun i => { id := "track-" ++ toString i, value := 1, unit := TrackUnit.fr })

/-- `DEFAULT_GRID_SETTINGS` from src/lib/constants.ts. -/
def DEFAULT_GRID_SETTINGS : GridSettingsMap :=
  { xs := { cols := 1, rows := 1, gap := 4, colTracks := createTracks 1, rowTracks := createTracks 1 }
    sm := { cols := 4, rows := 4, gap := 4, colTracks := createTracks 4, rowTracks := createTracks 4 }
    md := { cols := 4, rows := 4, gap := 4, colTracks := createTracks 4, rowTracks := createTracks 4 }
    lg := { cols := 4, rows := 4, gap := 4, colTracks := createTracks 4, rowTracks := createTracks 4 }
    xl := { cols := 4, rows := 4, gap := 4, colTracks := createTracks 4, rowTracks := createTracks 4 }
    x2l := { cols := 4, rows := 4, gap := 4, colTracks := createTracks 4, rowTracks := createTracks 4 } }

/-- `cloneGridSettings` from src/lib/grid.ts: a deep structural copy of every
setting and track; with value semantics this is the identity. -/
def cloneGridSettings (settings : GridSettingsMap) : GridSettingsMap := settings

/-- JavaScript `array.slice(0, stop)`: a nonnegative `stop` takes the first
`stop` elements, a negative `stop` counts from the end. -/
def jsSliceTo (stop : ℤ) (l : List Track) : List Track :=
  if stop < 0 then l.take ((l.length + stop).toNat) else l.take stop.toNat

/-- The `(key, value)` payload of `updateGridSetting`, typed per key as the
TypeScript callers use it. -/
inductive GridSettingUpdate where
  | cols (n : ℤ)
  | rows (n : ℤ)
  | gap (n : ℤ)
  | colTracks (ts : List Track)
  | rowTracks (ts : List Track)
deriving DecidableEq, Repr

/-- `updateGridSetting` from src/hooks/useGridState.ts (root-settings path):
sets the field for the given breakpoint; a `cols`/`rows` update resizes the
corresponding track list (appending fresh default `1fr` tracks when growing,
`slice(0, n)` when shrinking), and a direct `colTracks`/`rowTracks` update
resynchronizes `cols`/`rows` to the new track count.  The `Math.random()`
ids of appended tracks are supplied by `mkId`. -/
def updateGridSetting (m : GridSettingsMap) (bp : Breakpoint)
    (upd : GridSettingUpdate) (mkId : ℕ → String) : GridSettingsMap :=
  let currentSettings := m.get bp
  let updated : GridSetting :=
    match upd with
    | .cols newCols =>
        let oldTracks := currentSettings.colTracks
        if (oldTracks.length : ℤ) < newCols then
          let added := (List.range (newCols - oldTracks.length).toNat).map
            (fun k => { id := mkId k, value := 1, unit := TrackUnit.fr })
          { currentSettings with cols := newCols, colTracks := oldTracks ++ added }
        else if newCols < (oldTracks.length : ℤ) then
          { currentSettings with cols := newCols, colTracks := jsSliceTo newCols oldTracks }
        else { currentSettings with cols := newCols }
    | .rows newRows =>
        let oldTracks := currentSettings.rowTracks
        if (oldTracks.length : ℤ) < newRows then
          let added := (List.range (newRows - oldTracks.length).toNat).map
            (fun k => { id := mkId k, value := 1, unit := TrackUnit.fr })
          { currentSettings with rows := newRows, rowTracks := oldTracks ++ added }
        else if newRows < (oldTracks.length : ℤ) then
          { currentSettings with rows := newRows, rowTracks := jsSliceTo newRows oldTracks }
        else { currentSettings with rows := newRows }
    | .gap g => { currentSettings with gap := g }
    | .colTracks ts => { currentSettings with colTracks := ts, cols := (ts.length : ℤ) }
    | .rowTracks ts => { currentSettings with rowTracks := ts, rows := (ts.length : ℤ) }
  m.set bp updated

/-- Reading back the entry just written by `GridSettingsMap.set`. -/
theorem gridSettingsMap_get_set (m : GridSettingsMap) (bp : Breakpoint) (v : GridSetting) :
    (m.set bp v).get bp = v := by
  cases bp <;> rfl

/-! ## Claim C5: track/cols synchronization -/

/-- C5.  On a breakpoint entry whose `colTracks` (resp. `rowTracks`) has
length 4 and whose untouched axis is in sync, updating `cols` to 6 appends
two fresh default `1fr` tracks after the original four; updating `cols` to 2
truncates to the first two tracks; updating `colTracks` directly resets
`cols` to the new track count; and after each of these updates
`cols = colTracks.length` and `rows = rowTracks.length` both hold.  The same
holds symmetrically on the row axis. -/
theorem updateGridSetting_track_sync (m : GridSettingsMap) (bp : Breakpoint)
    (mkId : ℕ → String)
    (hc4 : (m.get bp).colTracks.length = 4)
    (hr4 : (m.get bp).rowTracks.length = 4)
    (hcsync : (m.get bp).cols = ((m.get bp).colTracks.length : ℤ))
    (hrsync : (m.get bp).rows = ((m.get bp).rowTracks.length : ℤ)) :
    ((updateGridSetting m bp (.cols 6) mkId).get bp).colTracks =
        (m.get bp).colTracks ++
          [{ id := mkId 0, value := 1, unit := TrackUnit.fr },
           { id := mkId 1, value := 1, unit := TrackUnit.fr }] ∧
    ((updateGridSetting m bp (.cols 6) mkId).get bp).colTracks.length = 6 ∧
    ((updateGridSetting m bp (.cols 6) mkId).get bp).cols =
        (((updateGridSetting m bp (.cols 6) mkId).get bp).colTracks.length : ℤ) ∧
    ((updateGridSetting m bp (.cols 6) mkId).get bp).rows =
        (((updateGridSetting m bp (.cols 6) mkId).get bp).rowTracks.length : ℤ) ∧
    ((updateGridSetting m bp (.cols 2) mkId).get bp).colTracks =
        (m.get bp).colTracks.take 2 ∧
    ((updateGridSetting m bp (.cols 2) mkId).get bp).cols =
        (((updateGridSetting m bp (.cols 2) mkId).get bp).colTracks.length : ℤ) ∧
    ((updateGridSetting m bp (.cols 2) mkId).get bp).rows =
        (((updateGridSetting m bp (.cols 2) mkId).get bp).rowTracks.length : ℤ) ∧
    (∀ ts : List Track,
      ((updateGridSetting m bp (.colTracks ts) mkId).get bp).colTracks = ts ∧
      ((updateGridSetting m bp (.colTracks ts) mkId).get bp).cols = (ts.length : ℤ) ∧
      ((updateGridSetting m bp (.colTracks ts) mkId).get bp).rows =
        (((updateGridSetting m bp (.colTracks ts) mkId).get bp).rowTracks.length : ℤ)) ∧
    ((updateGridSetting m bp (.rows 6) mkId).get bp).rowTracks =
        (m.get bp).rowTracks ++
          [{ id := mkId 0, value := 1, unit := TrackUnit.fr },
           { id := mkId 1, value := 1, unit := TrackUnit.fr }] ∧
    ((updateGridSetting m bp (.rows 2) mkId).get bp).rowTracks =
        (m.get bp).rowTracks.take 2 ∧
    ((updateGridSetting m bp (.rows 6) mkId).get bp).cols =
        (((updateGridSetting m bp (.rows 6) mkId).get bp).colTracks.length : ℤ) ∧
    (∀ ts : List Track,
      ((updateGridSetting m bp (.rowTracks ts) mkId).get bp).rowTracks = ts ∧
      ((updateGridSetting m bp (.rowTracks ts) mkId).get bp).rows = (ts.length : ℤ)) := by
  have h6 : ((4 : ℤ) < 6) := by norm_num
  have h2 : ¬ ((4 : ℤ) < 2) := by norm_num
  have h2' : ((2 : ℤ) < 4) := by norm_num
  refine ⟨?_, ?_, ?_, ?_, ?_, ?_, ?_, ?_, ?_, ?_, ?_, ?_⟩ <;>
    simp [updateGridSetting, gridSettingsMap_get_set, hc4, hr4, hcsync, hrsync,
      jsSliceTo, List.range_succ]

/-- C5 witness: the synchronization facts at the default settings of the
`sm` breakpoint (four `1fr` tracks on each axis). -/
theorem updateGridSetting_track_sync_witness :
    ((updateGridSetting DEFAULT_GRID_SETTINGS .sm (.cols 6) (fun k => toString k)).get
        .sm).colTracks.length = 6 ∧
    ((updateGridSetting DEFAULT_GRID_SETTINGS .sm (.cols 2) (fun k => toString k)).get
        .sm).colTracks = (DEFAULT_GRID_SETTINGS.get .sm).colTracks.take 2 := by
  have h := updateGridSetting_track_sync DEFAULT_GRID_SETTINGS .sm (fun k => toString k)
    (by decide) (by decide) (by decide) (by decide)
  exact ⟨h.2.1, h.2.2.2.2.1⟩

/-! ## Geometry-pixel bridge (src/components/PreviewCanvas.tsx) -/

/-- The part of a `DOMRect` the bridge reads. -/
structure DOMRectModel where
  left : ℚ
  top : ℚ
deriving DecidableEq, Repr

/-- `GridMetrics` from src/components/PreviewCanvas.tsx: rendered per-axis
track pixel sizes and the gap in pixels. -/
structure GridMetrics where
  colWidths : List ℚ
  rowHeights : List ℚ
  gapPx : ℚ
  gridRect : DOMRectModel
deriving DecidableEq, Repr

/-- `DragIndicator`: the ephemeral preview rectangle in pixels. -/
structure DragIndicator where
  left : ℚ
  top : ℚ
  width : ℚ
  height : ℚ
deriving DecidableEq, Repr

/-- `getTrackPosition` from src/components/PreviewCanvas.tsx: cumulative
pixel offset of the 1-based track `index`, summing `sizes[i] + gap` for
`i < index - 1`. -/
def getTrackPosition (index : ℤ) (sizes : List ℚ) (gap : ℚ) : ℚ :=
  ((sizes.take (index - 1).toNat).map (fun s => s + gap)).sum

/-- The track-walking loop of `positionFromCoords`: starting from offset
`current` and line `start`, select the first track whose midpoint exceeds
the pointer coordinate `x`; past the last track, return the line counter. -/
def findTrackStart (x gap : ℚ) : List ℚ → ℚ → ℤ → ℤ
  | [], _, start => start
  | width :: rest, current, start =>
      if x < current + width / 2 then start
      else findTrackStart x gap rest (current + width + gap) (start + 1)

/-- `clamp` from src/lib/grid.ts (`Math.min(Math.max(value, min), max)`),
at the integer grid-line values used by `positionFromCoords`. -/
def clampZ (value lo hi : ℤ) : ℤ := min (max value lo) hi

/-- `positionFromCoords` from src/components/PreviewCanvas.tsx: convert a
pixel position to grid start lines, clamping so the given spans fit within
the grid. -/
def positionFromCoords (x y : ℚ) (metrics : GridMetrics)
    (colSpan rowSpan totalCols totalRows : ℤ) : ℤ × ℤ :=
  let colStart := findTrackStart x metrics.gapPx metrics.colWidths 0 1
  let rowStart := findTrackStart y metrics.gapPx metrics.rowHeights 0 1
  let maxCol := max 1 (totalCols - colSpan + 1)
  let maxRow := max 1 (totalRows - rowSpan + 1)
  (clampZ colStart 1 maxCol, clampZ rowStart 1 maxRow)

/-- `indicatorFrom` from src/components/PreviewCanvas.tsx: the pixel
rectangle spanned by the given grid coordinates.  The width/height loops
add `sizes[i]` for the `span` indices from `start - 1` on, skipping indices
past the end of the list, plus one gap per additional track. -/
def indicatorFrom (colStart rowStart colSpan rowSpan : ℤ) (metrics : GridMetrics) :
    DragIndicator :=
  { left := getTrackPosition colStart metrics.colWidths metrics.gapPx
    top := getTrackPosition rowStart metrics.rowHeights metrics.gapPx
    width := ((metrics.colWidths.drop (colStart - 1).toNat).take colSpan.toNat).sum
      + metrics.gapPx * ((max (colSpan - 1) 0 : ℤ) : ℚ)
    height := ((metrics.rowHeights.drop (rowStart - 1).toNat).take rowSpan.toNat).sum
      + metrics.gapPx * ((max (rowSpan - 1) 0 : ℤ) : ℚ) }

/-- On a uniform track list, the pixel offset of line `c` is
`(c - 1) * (w + gap)`. -/
theorem getTrackPosition_replicate (w gap : ℚ) (n : ℕ) (c : ℤ)
    (h1 : 1 ≤ c) (h2 : (c - 1).toNat ≤ n) :
    getTrackPosition c (List.replicate n w) gap = ((c - 1 : ℤ) : ℚ) * (w + gap) := by
  unfold getTrackPosition
  rw [List.take_replicate, min_eq_left h2, List.map_replicate, List.sum_replicate,
    nsmul_eq_mul]
  have : (((c - 1).toNat : ℤ) : ℚ) = ((c - 1 : ℤ) : ℚ) := by
    rw [Int.toNat_of_nonneg (by omega)]
  push_cast at this ⊢
  rw [this]

/-- On a uniform positive track list of length at least `j ≥ 1`, the
track-walking loop started at offset `acc` and line `start` stops exactly
`j - 1` tracks in when the pointer sits at the left edge of track `j`. -/
theorem findTrackStart_replicate (w gap : ℚ) (hw : 0 < w) (hg : 0 ≤ gap) :
    ∀ (n : ℕ) (j : ℤ) (acc : ℚ) (start : ℤ), 1 ≤ j → j ≤ (n : ℤ) →
      findTrackStart (acc + ((j - 1 : ℤ) : ℚ) * (w + gap)) gap
        (List.replicate n w) acc start = start + (j - 1) := by
  intro n
  induction n with
  | zero =>
      intro j acc start h1 h2
      exfalso
      omega
  | succ n ih =>
      intro j acc start h1 h2
      rw [List.replicate_succ]
      by_cases hj : j = 1
      · subst hj
        have hcond : acc + ((1 - 1 : ℤ) : ℚ) * (w + gap) < acc + w / 2 := by
          push_cast
          linarith
        simp only [findTrackStart, if_pos hcond]
        omega
      · have hj2 : 2 ≤ j := by omega
        have hwg : (0 : ℚ) < w + gap := by linarith
        have hge : (1 : ℚ) ≤ ((j - 1 : ℤ) : ℚ) := by
          exact_mod_cast (by omega : (1 : ℤ) ≤ j - 1)
        have hcond : ¬ (acc + ((j - 1 : ℤ) : ℚ) * (w + gap) < acc + w / 2) := by
          have := mul_le_mul_of_nonneg_right hge hwg.le
          push_cast at this ⊢
          linarith
        simp only [findTrackStart, if_neg hcond]
        have hx : acc + ((j - 1 : ℤ) : ℚ) * (w + gap) =
            (acc + w + gap) + ((j - 1 - 1 : ℤ) : ℚ) * (w + gap) := by
          push_cast
          ring
        rw [hx, ih (j - 1) (acc + w + gap) (start + 1) (by omega) (by omega)]
        omega

/-- C6.  Geometry round-trip: on uniform positive tracks with nonnegative
gap, converting the (left, top) corner of the indicator rectangle of
in-range grid coordinates back through `positionFromCoords` recovers the
same `(colStart, rowStart)`. -/
theorem positionFromCoords_indicator_roundtrip
    (w h gap : ℚ) (nc nr : ℕ) (colStart rowStart colSpan rowSpan : ℤ)
    (hw : 0 < w) (hh : 0 < h) (hg : 0 ≤ gap)
    (hc1 : 1 ≤ colStart) (hr1 : 1 ≤ rowStart)
    (hcs : 1 ≤ colSpan) (hrs : 1 ≤ rowSpan)
    (hcf : colStart ≤ (nc : ℤ) - colSpan + 1) (hrf : rowStart ≤ (nr : ℤ) - rowSpan + 1) :
    positionFromCoords
      (indicatorFrom colStart rowStart colSpan rowSpan
        ⟨List.replicate nc w, List.replicate nr h, gap, ⟨0, 0⟩⟩).left
      (indicatorFrom colStart rowStart colSpan rowSpan
        ⟨List.replicate nc w, List.replicate nr h, gap, ⟨0, 0⟩⟩).top
      ⟨List.replicate nc w, List.replicate nr h, gap, ⟨0, 0⟩⟩
      colSpan rowSpan nc nr = (colStart, rowStart) := by
  have hleft : (indicatorFrom colStart rowStart colSpan rowSpan
      ⟨List.replicate nc w, List.replicate nr h, gap, ⟨0, 0⟩⟩).left =
      0 + ((colStart - 1 : ℤ) : ℚ) * (w + gap) := by
    show getTrackPosition colStart (List.replicate nc w) gap = _
    rw [getTrackPosition_replicate w gap nc colStart hc1 (by omega)]
    ring
  have htop : (indicatorFrom colStart rowStart colSpan rowSpan
      ⟨List.replicate nc w, List.replicate nr h, gap, ⟨0, 0⟩⟩).top =
      0 + ((rowStart - 1 : ℤ) : ℚ) * (h + gap) := by
    show getTrackPosition rowStart (List.replicate nr h) gap = _
    rw [getTrackPosition_replicate h gap nr rowStart hr1 (by omega)]
    ring
  unfold positionFromCoords
  rw [hleft, htop]
  show (clampZ (findTrackStart _ gap (List.replicate nc w) 0 1) 1 _,
        clampZ (findTrackStart _ gap (List.replicate nr h) 0 1) 1 _) = _
  rw [findTrackStart_replicate w gap hw hg nc colStart 0 1 hc1 (by omega),
      findTrackStart_replicate h gap hh hg nr rowStart 0 1 hr1 (by omega)]
  unfold clampZ
  rw [Prod.mk.injEq]
  omega

/-- C6 witness: round-trip at a concrete uniform 4x3 grid of 50x40-pixel
tracks with an 8-pixel gap, for the cell block starting at (2, 2) spanning
2x1. -/
theorem positionFromCoords_indicator_roundtrip_witness :
    positionFromCoords
      (indicatorFrom 2 2 2 1 ⟨List.replicate 4 50, List.replicate 3 40, 8, ⟨0, 0⟩⟩).left
      (indicatorFrom 2 2 2 1 ⟨List.replicate 4 50, List.replicate 3 40, 8, ⟨0, 0⟩⟩).top
      ⟨List.replicate 4 50, List.replicate 3 40, 8, ⟨0, 0⟩⟩ 2 1 4 3 = (2, 2) :=
  positionFromCoords_indicator_roundtrip 50 40 8 4 3 2 2 2 1
    (by norm_num) (by norm_num) (by norm_num) (by norm_num) (by norm_num)
    (by norm_num) (by norm_num) (by norm_num) (by norm_num)

/-! ## Item tree (src/lib/types.ts `GridItem`) -/

/-- `GridItem` from src/lib/types.ts: a leaf has neither `subGrid` nor
`children`; a container has both.  Ids are JavaScript numbers (fresh ids
come from `Date.now()` and may carry a `Math.random()` fraction), modelled
as `ℚ`. -/
inductive GridItem where
  | mk (id : ℚ) (color : String) (layout : LayoutMap)
       (subGrid : Option GridSettingsMap) (children : Option (List GridItem))

/-- The `id` field of a `GridItem`. -/
def GridItem.idOf : GridItem → ℚ
  | .mk i _ _ _ _ => i

/-- The `color` field of a `GridItem`. -/
def GridItem.colorOf : GridItem → String
  | .mk _ c _ _ _ => c

/-- The `layout` field of a `GridItem`. -/
def GridItem.layoutOf : GridItem → LayoutMap
  | .mk _ _ l _ _ => l

/-- The `subGrid` field of a `GridItem`. -/
def GridItem.subGridOf : GridItem → Option GridSettingsMap
  | .mk _ _ _ sg _ => sg

/-- The `children` field of a `GridItem`. -/
def GridItem.childrenOf : GridItem → Option (List GridItem)
  | .mk _ _ _ _ ch => ch

instance : Inhabited GridItem := ⟨.mk 0 "" createLayoutMap none none⟩

/-- `{...item, layout: {...item.layout, [bp]: cb(item.layout[bp])}}`. -/
def GridItem.withLayoutAt (item : GridItem) (bp : Breakpoint)
    (cb : ItemLayout → ItemLayout) : GridItem :=
  match item with
  | .mk i c l sg ch => .mk i c (l.set bp (cb (l.get bp))) sg ch

/-! ## Reflow (src/hooks/useGridState.ts `reflowOrders`) -/

/-- `parsePosition` from src/hooks/useGridState.ts: `Number(value)`, with
`NaN` replaced by `POSITIVE_INFINITY`; the result lives in `WithTop ℚ`. -/
def parsePosition (value : String) : WithTop ℚ :=
  match jsToNumber value with
  | none => ⊤
  | some q => (q : WithTop ℚ)

/-- The per-sibling record built by `reflowOrders` before sorting. -/
structure ReflowEntry where
  id : ℚ
  row : WithTop ℚ
  col : WithTop ℚ
  index : ℕ
deriving DecidableEq, Repr

instance : Inhabited ReflowEntry := ⟨⟨0, ⊤, ⊤, 0⟩⟩

/-- The sort comparator of `reflowOrders` as a "comes before or ties"
relation: rows ascending, then columns ascending, then original index
ascending (`+∞` rows/columns sort last). -/
def entryLE (a b : ReflowEntry) : Prop :=
  a.row < b.row ∨ (a.row = b.row ∧ (a.col < b.col ∨ (a.col = b.col ∧ a.index ≤ b.index)))

/-- The corresponding strict "comes before" relation. -/
def entryLT (a b : ReflowEntry) : Prop :=
  a.row < b.row ∨ (a.row = b.row ∧ (a.col < b.col ∨ (a.col = b.col ∧ a.index < b.index)))

instance : DecidableRel entryLE := fun a b => by
  unfold entryLE
  infer_instance

instance : DecidableRel entryLT := fun a b => by
  unfold entryLT
  infer_instance

instance : IsTotal ReflowEntry entryLE where
  total a b := by
    unfold entryLE
    rcases lt_trichotomy a.row b.row with h | h | h
    · exact Or.inl (Or.inl h)
    · rcases lt_trichotomy a.col b.col with h2 | h2 | h2
      · exact Or.inl (Or.inr ⟨h, Or.inl h2⟩)
      · rcases Nat.le_total a.index b.index with h3 | h3
        · exact Or.inl (Or.inr ⟨h, Or.inr ⟨h2, h3⟩⟩)
        · exact Or.inr (Or.inr ⟨h.symm, Or.inr ⟨h2.symm, h3⟩⟩)
      · exact Or.inr (Or.inr ⟨h.symm, Or.inl h2⟩)
    · exact Or.inr (Or.inl h)

instance : IsTrans ReflowEntry entryLE where
  trans a b c hab hbc := by
    unfold entryLE at *
    rcases hab with h1 | ⟨e1, h1⟩
    · rcases hbc with h2 | ⟨e2, _⟩
      · exact Or.inl (h1.trans h2)
      · exact Or.inl (e2 ▸ h1)
    · rcases hbc with h2 | ⟨e2, h2⟩
      · exact Or.inl (e1 ▸ h2)
      · refine Or.inr ⟨e1.trans e2, ?_⟩
        rcases h1 with h1 | ⟨f1, h1⟩
        · rcases h2 with h2 | ⟨f2, _⟩
          · exact Or.inl (h1.trans h2)
          · exact Or.inl (f2 ▸ h1)
        · rcases h2 with h2 | ⟨f2, h2⟩
          · exact Or.inl (f1 ▸ h2)
          · exact Or.inr ⟨f1.trans f2, h1.trans h2⟩

/-- A `Map`'s `get` over the insertion list of `(key, value)` pairs built by
`Map.set` in order: the value of the last matching insertion. -/
def mapGet (pairs : List (ℚ × ℕ)) (k : ℚ) : Option ℕ :=
  (pairs.reverse.find? (fun p => p.1 == k)).map (fun p => p.2)

/-- A `Map`'s `size` over its insertion list: the number of distinct keys. -/
def mapSize (pairs : List (ℚ × ℕ)) : ℕ :=
  (pairs.map (fun p => p.1)).dedup.length

/-- The entry list `reflowOrders` builds from a sibling list at a
breakpoint: id, parsed `rowStart`/`colStart`, original index. -/
def reflowEntries (list : List GridItem) (bp : Breakpoint) : List ReflowEntry :=
  list.enum.map (fun p =>
    { id := p.2.idOf
      row := parsePosition ((p.2.layoutOf.get bp).rowStart)
      col := parsePosition ((p.2.layoutOf.get bp).colStart)
      index := p.1 })

/-- `reflowOrders` from src/hooks/useGridState.ts: sort the siblings'
entries by row, column, then original index; build the id-to-rank map; and
overwrite each sibling's `order` for the breakpoint with
`String(rank + 1)` (`orderMap.size + 1` when the id is missing from the
map, which cannot happen for distinct ids). -/
def reflowOrders (list : List GridItem) (bp : Breakpoint) : List GridItem :=
  let sorted := List.insertionSort entryLE (reflowEntries list bp)
  let pairs := sorted.enum.map (fun p => (p.2.id, p.1 + 1))
  list.map (fun item =>
    let currentOrder := (mapGet pairs item.idOf).getD (mapSize pairs + 1)
    item.withLayoutAt bp (fun l => { l with order := toString currentOrder }))

/-! ## Claim C2: reflow assigns 1-based sorted ranks -/

/-- The lexicographic sort key of a reflow entry: row, then column, then
original index. -/
def entryKey (e : ReflowEntry) : (WithTop ℚ) ×ₗ ((WithTop ℚ) ×ₗ ℕ) :=
  toLex (e.row, toLex (e.col, e.index))

/-- The strict comparator agrees with the lexicographic key order. -/
theorem entryLT_iff (a b : ReflowEntry) : entryLT a b ↔ entryKey a < entryKey b := by
  unfold entryLT entryKey
  simp [Prod.Lex.lt_iff]

/-- The non-strict comparator agrees with the lexicographic key order. -/
theorem entryLE_iff (a b : ReflowEntry) : entryLE a b ↔ entryKey a ≤ entryKey b := by
  unfold entryLE entryKey
  simp [Prod.Lex.le_iff, Prod.Lex.lt_iff]

/-- No entry sorts strictly before itself. -/
theorem entryLT_irrefl (a : ReflowEntry) : ¬ entryLT a a := by
  rw [entryLT_iff]
  exact lt_irrefl _

/-- The strict comparator is asymmetric. -/
theorem entryLT_asymm {a b : ReflowEntry} (h : entryLT a b) : ¬ entryLT b a := by
  rw [entryLT_iff] at h ⊢
  exact lt_asymm h

/-- Entries that tie under the comparator but have different original
indices are strictly ordered. -/
theorem entryLT_of_LE_of_ne {a b : ReflowEntry} (h : entryLE a b)
    (hne : a.index ≠ b.index) : entryLT a b := by
  rw [entryLE_iff] at h
  rw [entryLT_iff]
  refine lt_of_le_of_ne h (fun hk => hne ?_)
  have := congrArg (fun k : (WithTop ℚ) ×ₗ ((WithTop ℚ) ×ₗ ℕ) => (ofLex (ofLex k).2).2) hk
  simpa [entryKey] using this

/-- In a strictly sorted list, the number of elements that sort strictly
before the element at position `j` is exactly `j`. -/
theorem countP_entryLT_of_pairwise :
    ∀ (s : List ReflowEntry), s.Pairwise entryLT → ∀ j, (hj : j < s.length) →
      s.countP (fun e => decide (entryLT e s[j])) = j := by
  intro s
  induction s with
  | nil => intro _ j hj; simp at hj
  | cons a t ih =>
      intro hp j hj
      rcases List.pairwise_cons.mp hp with ⟨ha, ht⟩
      cases j with
      | zero =>
          simp only [List.getElem_cons_zero, List.countP_cons]
          rw [List.countP_eq_zero.mpr (fun e he => by simp [entryLT_asymm (ha e he)])]
          simp [entryLT_irrefl a]
      | succ j =>
          have hjt : j < t.length := by simpa using hj
          simp only [List.getElem_cons_succ, List.countP_cons]
          rw [ih ht j hjt]
          simp [ha _ (List.getElem_mem hjt)]

/-- `find?` on a pair list with distinct keys returns the unique pair with
the sought key. -/
theorem find?_eq_some_of_nodup_keys :
    ∀ (l : List (ℚ × ℕ)) (p : ℚ × ℕ), p ∈ l → (l.map Prod.fst).Nodup →
      l.find? (fun q => q.1 == p.1) = some p := by
  intro l
  induction l with
  | nil => intro p hp _; simp at hp
  | cons a t ih =>
      intro p hp hnd
      rw [List.map_cons, List.nodup_cons] at hnd
      rcases List.mem_cons.mp hp with rfl | hp'
      · exact List.find?_cons_of_pos _ (by simp)
      · have hne : (a.1 == p.1) = false := by
          refine beq_eq_false_iff_ne.mpr (fun he => hnd.1 ?_)
          rw [he]
          exact List.mem_map_of_mem Prod.fst hp'
        rw [List.find?_cons_of_neg _ (by simp [hne])]
        exact ih p hp' hnd.2

/-- `mapGet` on an insertion list with distinct keys returns the unique
value stored at the key. -/
theorem mapGet_eq_of_nodup_keys (pairs : List (ℚ × ℕ)) (p : ℚ × ℕ)
    (hp : p ∈ pairs) (hnd : (pairs.map Prod.fst).Nodup) :
    mapGet pairs p.1 = some p.2 := by
  unfold mapGet
  rw [find?_eq_some_of_nodup_keys pairs.reverse p (by simpa using hp)
    (by rw [List.map_reverse]; simpa using hnd)]
  rfl

/-- Reading back the entry just written by `LayoutMap.set`. -/
theorem layoutMap_get_set (m : LayoutMap) (bp : Breakpoint) (v : ItemLayout) :
    (m.set bp v).get bp = v := by
  cases bp <;> rfl

/-- Reading the layout at `bp` after `withLayoutAt bp` applies the callback
to the previous entry. -/
theorem layoutOf_withLayoutAt (item : GridItem) (bp : Breakpoint)
    (g : ItemLayout → ItemLayout) :
    ((item.withLayoutAt bp g).layoutOf).get bp = g (item.layoutOf.get bp) := by
  cases item
  simp [GridItem.withLayoutAt, GridItem.layoutOf, layoutMap_get_set]

/-- The 0-based rank of sibling `k` under the reflow sort: the number of
sibling entries sorting strictly before its entry (rows ascending, then
columns, then original index; `+∞` for non-numeric positions). -/
def reflowRank (list : List GridItem) (bp : Breakpoint) (k : ℕ) : ℕ :=
  (reflowEntries list bp).countP
    (fun e => decide (entryLT e ((reflowEntries list bp).getD k default)))

/-- C2.  For a sibling list with pairwise distinct ids, `reflowOrders`
assigns to sibling `k` at the given breakpoint the order string
`String(rank + 1)`, where `rank` is the sibling's 0-based position after
sorting by (numeric rowStart, numeric colStart, original index), non-numeric
and `"auto"` positions sorting last. -/
theorem reflowOrders_assigns_rank (list : List GridItem) (bp : Breakpoint)
    (hids : list.Pairwise (fun a b => a.idOf ≠ b.idOf)) (k : ℕ)
    (hk : k < list.length) :
    (((reflowOrders list bp).getD k default).layoutOf.get bp).order =
      toString (reflowRank list bp k + 1) := by
  have hlen : (reflowEntries list bp).length = list.length := by
    simp [reflowEntries]
  have hkent : k < (reflowEntries list bp).length := by omega
  have hperm : (List.insertionSort entryLE (reflowEntries list bp)).Perm
      (reflowEntries list bp) := List.perm_insertionSort entryLE _
  have hsorted : (List.insertionSort entryLE (reflowEntries list bp)).Pairwise entryLE :=
    List.sorted_insertionSort entryLE _
  -- original indices of the entries are distinct
  have hidx : (reflowEntries list bp).map (fun e => e.index) = List.range list.length := by
    unfold reflowEntries
    rw [List.map_map, ← List.enum_map_fst list]
    rfl
  have hidxnodup :
      ((List.insertionSort entryLE (reflowEntries list bp)).map (fun e => e.index)).Nodup := by
    rw [(hperm.map (fun e => e.index)).nodup_iff, hidx]
    exact List.nodup_range _
  have hpairwiseLT : (List.insertionSort entryLE (reflowEntries list bp)).Pairwise entryLT := by
    have hne : (List.insertionSort entryLE (reflowEntries list bp)).Pairwise
        (fun a b => a.index ≠ b.index) := List.pairwise_map.mp hidxnodup
    exact (hsorted.and hne).imp (fun h => entryLT_of_LE_of_ne h.1 h.2)
  -- entry ids are distinct
  have hmapid : (reflowEntries list bp).map ReflowEntry.id = list.map GridItem.idOf := by
    unfold reflowEntries
    rw [List.map_map]
    conv_rhs => rw [← List.enum_map_snd list, List.map_map]
    rfl
  have hsortedids :
      ((List.insertionSort entryLE (reflowEntries list bp)).map ReflowEntry.id).Nodup := by
    rw [(hperm.map ReflowEntry.id).nodup_iff, hmapid]
    exact List.pairwise_map.mpr hids
  -- locate entry k inside the sorted list
  have hmem : (reflowEntries list bp)[k] ∈ List.insertionSort entryLE (reflowEntries list bp) :=
    hperm.mem_iff.mpr (List.getElem_mem hkent)
  obtain ⟨j, hj, hsj⟩ := List.mem_iff_getElem.mp hmem
  -- the id-to-rank association list has distinct keys
  have hkeys : (((List.insertionSort entryLE (reflowEntries list bp)).enum.map
      (fun p => (p.2.id, p.1 + 1))).map Prod.fst).Nodup := by
    rw [List.map_map]
    have h1 : (List.insertionSort entryLE (reflowEntries list bp)).map ReflowEntry.id =
        (List.insertionSort entryLE (reflowEntries list bp)).enum.map
          (Prod.fst ∘ fun p => (p.2.id, p.1 + 1)) := by
      conv_lhs => rw [← List.enum_map_snd (List.insertionSort entryLE (reflowEntries list bp)),
        List.map_map]
      rfl
    rw [← h1]
    exact hsortedids
  -- membership of the pair for position j
  have hpair_mem : ((List.insertionSort entryLE (reflowEntries list bp))[j].id, j + 1) ∈
      (List.insertionSort entryLE (reflowEntries list bp)).enum.map
        (fun p => (p.2.id, p.1 + 1)) := by
    refine List.mem_map.mpr ⟨(j, (List.insertionSort entryLE (reflowEntries list bp))[j]), ?_, rfl⟩
    rw [List.mem_iff_getElem]
    exact ⟨j, by simpa using hj, List.getElem_enum _ _ _⟩
  have hget : mapGet ((List.insertionSort entryLE (reflowEntries list bp)).enum.map
      (fun p => (p.2.id, p.1 + 1)))
      ((List.insertionSort entryLE (reflowEntries list bp))[j].id) = some (j + 1) :=
    mapGet_eq_of_nodup_keys _ _ hpair_mem hkeys
  -- the rank equals j
  have hcount : reflowRank list bp k = j := by
    unfold reflowRank
    rw [List.getD_eq_getElem _ _ hkent, ← hsj, ← hperm.countP_eq]
    exact countP_entryLT_of_pairwise _ hpairwiseLT j hj
  -- the id of the k-th entry is the id of the k-th item
  have hid : (reflowEntries list bp)[k].id = (list[k]).idOf := by
    simp [reflowEntries]
  -- unfold the left-hand side
  have hmaplen : k < (list.map (fun item =>
      let currentOrder := (mapGet ((List.insertionSort entryLE (reflowEntries list bp)).enum.map
        (fun p => (p.2.id, p.1 + 1))) item.idOf).getD
        (mapSize ((List.insertionSort entryLE (reflowEntries list bp)).enum.map
          (fun p => (p.2.id, p.1 + 1))) + 1)
      item.withLayoutAt bp (fun l => { l with order := toString currentOrder }))).length := by
    simpa using hk
  rw [reflowOrders]
  rw [List.getD_eq_getElem _ _ hmaplen, List.getElem_map, layoutOf_withLayoutAt]
  rw [← hid, ← hsj, hget, hcount]
  rfl

/-- A sibling whose `xs` layout has the given `rowStart`/`colStart`. -/
def siblingAt (i : ℚ) (r c : String) : GridItem :=
  .mk i "bg-blue-500"
    (createLayoutMap.set .xs { createEmptyLayout with rowStart := r, colStart := c })
    none none

/-- The three siblings of the claim, at (rowStart, colStart) = (2,1), (1,1),
(1,3). -/
def reflowExampleSiblings : List GridItem :=
  [siblingAt 10 "2" "1", siblingAt 20 "1" "1", siblingAt 30 "1" "3"]

/-- C2 witness: on the claim's example the theorem yields orders "3", "1",
"2" for the items at (2,1), (1,1), (1,3) respectively. -/
theorem reflowOrders_assigns_rank_witness :
    (((reflowOrders reflowExampleSiblings .xs).getD 0 default).layoutOf.get .xs).order = "3" ∧
    (((reflowOrders reflowExampleSiblings .xs).getD 1 default).layoutOf.get .xs).order = "1" ∧
    (((reflowOrders reflowExampleSiblings .xs).getD 2 default).layoutOf.get .xs).order = "2" := by
  have hids : reflowExampleSiblings.Pairwise (fun a b => a.idOf ≠ b.idOf) := by
    simp [reflowExampleSiblings, siblingAt, GridItem.idOf]
  have h0 := reflowOrders_assigns_rank reflowExampleSiblings .xs hids 0 (by decide)
  have h1 := reflowOrders_assigns_rank reflowExampleSiblings .xs hids 1 (by decide)
  have h2 := reflowOrders_assigns_rank reflowExampleSiblings .xs hids 2 (by decide)
  refine ⟨?_, ?_, ?_⟩
  · rw [h0]; decide
  · rw [h1]; decide
  · rw [h2]; decide

/-! ## Tree mutation engine (src/hooks/useGridState.ts) -/

/-- `COLORS` from src/lib/constants.ts. -/
def COLORS : List String :=
  ["bg-blue-500", "bg-purple-500", "bg-pink-500", "bg-red-500", "bg-orange-500",
   "bg-yellow-500", "bg-green-500", "bg-teal-500", "bg-cyan-500", "bg-indigo-500",
   "bg-violet-500", "bg-fuchsia-500"]

/-- `list.findIndex(i => i.id === itemId) !== -1`: whether an item with the
id sits directly in this sibling list. -/
def hasId (itemId : ℚ) (list : List GridItem) : Bool :=
  list.any (fun i => i.idOf == itemId)

mutual
/-- Whether an item with the id occurs anywhere in the tree (this level or
any descendant level). -/
def occursIn (itemId : ℚ) : List GridItem → Bool
  | [] => false
  | item :: rest => occursInItem itemId item || occursIn itemId rest

/-- Whether the item or any of its descendants carries the id. -/
def occursInItem (itemId : ℚ) : GridItem → Bool
  | GridItem.mk i _ _ _ ch =>
      i == itemId ||
      (match ch with
       | some cs => occursIn itemId cs
       | none => false)
end

mutual
/-- `updateItemRecursive` from src/hooks/useGridState.ts: map over the
list, applying `cb` to the item with the matching id and recursing into the
children of every other container. -/
def updateItemRecursive (itemId : ℚ) (cb : GridItem → GridItem) :
    List GridItem → List GridItem
  | [] => []
  | item :: rest =>
      (if item.idOf = itemId then cb item else updateItemChildren itemId cb item)
        :: updateItemRecursive itemId cb rest

/-- The non-matching case of `updateItemRecursive`: recurse into the
children when present, else keep the item. -/
def updateItemChildren (itemId : ℚ) (cb : GridItem → GridItem) : GridItem → GridItem
  | GridItem.mk i c l sg ch =>
      GridItem.mk i c l sg
        (match ch with
         | some cs => some (updateItemRecursive itemId cb cs)
         | none => none)
end

mutual
/-- The recursion of `removeItem` from src/hooks/useGridState.ts: filter
out every item with the id at this level (dropping its whole subtree) and
recurse into the children of the remaining items. -/
def removeRecursive (itemId : ℚ) : List GridItem → List GridItem
  | [] => []
  | item :: rest =>
      if item.idOf = itemId then removeRecursive itemId rest
      else removeChildren itemId item :: removeRecursive itemId rest

/-- Rebuild a kept item, removing the id from its children when present. -/
def removeChildren (itemId : ℚ) : GridItem → GridItem
  | GridItem.mk i c l sg ch =>
      GridItem.mk i c l sg
        (match ch with
         | some cs => some (removeRecursive itemId cs)
         | none => none)
end

/-- `removeItem` from src/hooks/useGridState.ts. -/
def removeItem (list : List GridItem) (itemId : ℚ) : List GridItem :=
  removeRecursive itemId list

/-- The new leaf built by `addItem`: fresh id (`Date.now()`), random palette
color, default layout, no `subGrid`, no `children`. -/
def newLeafItem (freshId : ℚ) (color : String) : GridItem :=
  .mk freshId color createLayoutMap none none

/-- The parent-updating callback of `addItem`: append the new leaf to
`parent.children || []` and reflow that sibling list. -/
def addChildCb (freshId : ℚ) (color : String) (bp : Breakpoint) : GridItem → GridItem
  | .mk i c l sg ch =>
      .mk i c l sg (some (reflowOrders ((ch.getD []) ++ [newLeafItem freshId color]) bp))

/-- `addItem` from src/hooks/useGridState.ts: without a parent id, append
the new leaf to the root list and reflow it; with a parent id, locate the
parent anywhere in the tree and append the leaf to its children,
reflowing that sibling list. -/
def addItem (list : List GridItem) (parentId : Option ℚ) (freshId : ℚ)
    (color : String) (bp : Breakpoint) : List GridItem :=
  match parentId with
  | none => reflowOrders (list ++ [newLeafItem freshId color]) bp
  | some pid => updateItemRecursive pid (addChildCb freshId color bp) list

/-- The item conversion of `convertItemToGrid`: attach a fresh default
sub-grid settings map and an empty children list. -/
def convertCb : GridItem → GridItem
  | .mk i c l _ _ => .mk i c l (some (cloneGridSettings DEFAULT_GRID_SETTINGS)) (some [])

/-- `convertItemToGrid` from src/hooks/useGridState.ts. -/
def convertItemToGrid (list : List GridItem) (itemId : ℚ) : List GridItem :=
  updateItemRecursive itemId convertCb list

mutual
/-- The `updateAndReflow` recursion inside `mutateLayout`
(src/hooks/useGridState.ts): when the item sits in this sibling list, apply
the layout callback to it for the breakpoint and reflow the whole list;
otherwise recurse into every container's children. -/
def updateAndReflow (itemId : ℚ) (bp : Breakpoint) (cb : ItemLayout → ItemLayout)
    (list : List GridItem) : List GridItem :=
  if hasId itemId list then
    reflowOrders
      (list.map (fun item =>
        if item.idOf = itemId then item.withLayoutAt bp cb else item)) bp
  else descendUpdate itemId bp cb list
termination_by (sizeOf list, 1)

/-- The not-found branch of `updateAndReflow`: rebuild each item, recursing
into its children when present. -/
def descendUpdate (itemId : ℚ) (bp : Breakpoint) (cb : ItemLayout → ItemLayout) :
    List GridItem → List GridItem
  | [] => []
  | item :: rest =>
      descendUpdateItem itemId bp cb item :: descendUpdate itemId bp cb rest
termination_by l => (sizeOf l, 0)

/-- One item of the not-found branch of `updateAndReflow`. -/
def descendUpdateItem (itemId : ℚ) (bp : Breakpoint) (cb : ItemLayout → ItemLayout) :
    GridItem → GridItem
  | GridItem.mk i c l sg ch =>
      GridItem.mk i c l sg
        (match ch with
         | some cs => some (updateAndReflow itemId bp cb cs)
         | none => none)
termination_by item => (sizeOf item, 0)
end

/-- `mutateLayout` from src/hooks/useGridState.ts (its pure tree part). -/
def mutateLayout (list : List GridItem) (itemId : ℚ) (bp : Breakpoint)
    (cb : ItemLayout → ItemLayout) : List GridItem :=
  updateAndReflow itemId bp cb list

mutual
/-- The found-at-this-level search of `duplicateItem`'s recursion: find the
first item of the sibling list with the id and produce its clone. -/
def dupWalk (itemId freshId : ℚ) (bp : Breakpoint) : List GridItem → Option GridItem
  | [] => none
  | item :: rest =>
      if item.idOf = itemId then some (dupClone itemId freshId bp item)
      else dupWalk itemId freshId bp rest
termination_by l => (sizeOf l, 0)

/-- The clone of a found item: fresh id, cloned layout map, same `subGrid`,
children passed through the duplicate recursion (which, the sought id being
the parent's, leaves them unchanged for unique ids). -/
def dupClone (itemId freshId : ℚ) (bp : Breakpoint) : GridItem → GridItem
  | GridItem.mk _ c l sg ch =>
      GridItem.mk freshId c (cloneLayoutMap l) sg
        (match ch with
         | some cs => some (duplicateList itemId freshId bp cs)
         | none => none)
termination_by item => (sizeOf item, 0)

/-- `duplicateItem`'s recursion (src/hooks/useGridState.ts): when the item
sits in this sibling list, append its clone to the list and reflow;
otherwise recurse into every container's children. -/
def duplicateList (itemId freshId : ℚ) (bp : Breakpoint) (list : List GridItem) :
    List GridItem :=
  match dupWalk itemId freshId bp list with
  | some clone => reflowOrders (list ++ [clone]) bp
  | none => descendDup itemId freshId bp list
termination_by (sizeOf list, 2)

/-- The not-found branch of `duplicateList`. -/
def descendDup (itemId freshId : ℚ) (bp : Breakpoint) : List GridItem → List GridItem
  | [] => []
  | item :: rest =>
      descendDupItem itemId freshId bp item :: descendDup itemId freshId bp rest
termination_by l => (sizeOf l, 1)

/-- One item of the not-found branch of `duplicateList`. -/
def descendDupItem (itemId freshId : ℚ) (bp : Breakpoint) : GridItem → GridItem
  | GridItem.mk i c l sg ch =>
      GridItem.mk i c l sg
        (match ch with
         | some cs => some (duplicateList itemId freshId bp cs)
         | none => none)
termination_by item => (sizeOf item, 1)
end

/-- `duplicateItem` from src/hooks/useGridState.ts. -/
def duplicateItem (list : List GridItem) (itemId freshId : ℚ) (bp : Breakpoint) :
    List GridItem :=
  duplicateList itemId freshId bp list

/-- The layout fields a field update may address. -/
inductive LayoutField where
  | colStart | colEnd | rowStart | rowEnd | colSpan | rowSpan | order
deriving DecidableEq, Repr

/-- The per-field callback of `updateItemLayout`
(src/hooks/useGridState.ts): span fields parse the raw value with invalid
or sub-1 numbers coerced to 1; positional and order fields normalize the
empty string and `"auto"` to `"auto"` and store anything else verbatim. -/
def updateItemLayoutCb (field : LayoutField) (value : String)
    (layout : ItemLayout) : ItemLayout :=
  match field with
  | .colSpan =>
      { layout with colSpan :=
          match jsToNumber value with
          | none => 1
          | some q => if q < 1 then 1 else q }
  | .rowSpan =>
      { layout with rowSpan :=
          match jsToNumber value with
          | none => 1
          | some q => if q < 1 then 1 else q }
  | .colStart =>
      { layout with colStart := if value = "" ∨ value = "auto" then "auto" else value }
  | .colEnd =>
      { layout with colEnd := if value = "" ∨ value = "auto" then "auto" else value }
  | .rowStart =>
      { layout with rowStart := if value = "" ∨ value = "auto" then "auto" else value }
  | .rowEnd =>
      { layout with rowEnd := if value = "" ∨ value = "auto" then "auto" else value }
  | .order =>
      { layout with order := if value = "" ∨ value = "auto" then "auto" else value }

/-- `updateItemLayout` from src/hooks/useGridState.ts. -/
def updateItemLayout (list : List GridItem) (itemId : ℚ) (bp : Breakpoint)
    (field : LayoutField) (value : String) : List GridItem :=
  mutateLayout list itemId bp (updateItemLayoutCb field value)

/-! ## Unfolding equations for the well-founded tree recursions -/

/-- `descendUpdate` on the empty list. -/
theorem descendUpdate_nil (itemId : ℚ) (bp : Breakpoint) (cb : ItemLayout → ItemLayout) :
    descendUpdate itemId bp cb [] = [] := by
  rw [descendUpdate.eq_def]

/-- `descendUpdate` on a cons cell. -/
theorem descendUpdate_cons (itemId : ℚ) (bp : Breakpoint) (cb : ItemLayout → ItemLayout)
    (item : GridItem) (rest : List GridItem) :
    descendUpdate itemId bp cb (item :: rest) =
      descendUpdateItem itemId bp cb item :: descendUpdate itemId bp cb rest := by
  rw [descendUpdate.eq_def]

/-- `descendUpdateItem` on a leaf-shaped item. -/
theorem descendUpdateItem_none (itemId : ℚ) (bp : Breakpoint) (cb : ItemLayout → ItemLayout)
    (i : ℚ) (c : String) (l : LayoutMap) (sg : Option GridSettingsMap) :
    descendUpdateItem itemId bp cb (GridItem.mk i c l sg none) = GridItem.mk i c l sg none := by
  rw [descendUpdateItem.eq_def]

/-- `descendUpdateItem` on a container-shaped item. -/
theorem descendUpdateItem_some (itemId : ℚ) (bp : Breakpoint) (cb : ItemLayout → ItemLayout)
    (i : ℚ) (c : String) (l : LayoutMap) (sg : Option GridSettingsMap) (cs : List GridItem) :
    descendUpdateItem itemId bp cb (GridItem.mk i c l sg (some cs)) =
      GridItem.mk i c l sg (some (updateAndReflow itemId bp cb cs)) := by
  rw [descendUpdateItem.eq_def]

/-- `dupWalk` on the empty list. -/
theorem dupWalk_nil (itemId freshId : ℚ) (bp : Breakpoint) :
    dupWalk itemId freshId bp [] = none := by
  rw [dupWalk.eq_def]

/-- `dupWalk` on a cons cell. -/
theorem dupWalk_cons (itemId freshId : ℚ) (bp : Breakpoint) (item : GridItem)
    (rest : List GridItem) :
    dupWalk itemId freshId bp (item :: rest) =
      if item.idOf = itemId then some (dupClone itemId freshId bp item)
      else dupWalk itemId freshId bp rest := by
  rw [dupWalk.eq_def]

/-- `descendDup` on the empty list. -/
theorem descendDup_nil (itemId freshId : ℚ) (bp : Breakpoint) :
    descendDup itemId freshId bp [] = [] := by
  rw [descendDup.eq_def]

/-- `descendDup` on a cons cell. -/
theorem descendDup_cons (itemId freshId : ℚ) (bp : Breakpoint) (item : GridItem)
    (rest : List GridItem) :
    descendDup itemId freshId bp (item :: rest) =
      descendDupItem itemId freshId bp item :: descendDup itemId freshId bp rest := by
  rw [descendDup.eq_def]

/-- `descendDupItem` on a leaf-shaped item. -/
theorem descendDupItem_none (itemId freshId : ℚ) (bp : Breakpoint)
    (i : ℚ) (c : String) (l : LayoutMap) (sg : Option GridSettingsMap) :
    descendDupItem itemId freshId bp (GridItem.mk i c l sg none) =
      GridItem.mk i c l sg none := by
  rw [descendDupItem.eq_def]

/-- `descendDupItem` on a container-shaped item. -/
theorem descendDupItem_some (itemId freshId : ℚ) (bp : Breakpoint)
    (i : ℚ) (c : String) (l : LayoutMap) (sg : Option GridSettingsMap) (cs : List GridItem) :
    descendDupItem itemId freshId bp (GridItem.mk i c l sg (some cs)) =
      GridItem.mk i c l sg (some (duplicateList itemId freshId bp cs)) := by
  rw [descendDupItem.eq_def]

/-! ## Claim C8: operations on a missing id are safe no-ops -/

/-- An item whose subtree misses the id does not itself carry the id. -/
theorem idOf_ne_of_occursInItem {itemId : ℚ} {item : GridItem}
    (h : occursInItem itemId item = false) : ¬ (item.idOf = itemId) := by
  cases item with
  | mk i c l sg ch =>
      simp only [occursInItem.eq_def, Bool.or_eq_false_iff] at h
      simpa [GridItem.idOf] using h.1

/-- The children of a container whose subtree misses the id also miss it. -/
theorem occursIn_children_of_occursInItem {itemId : ℚ} {i : ℚ} {c : String}
    {l : LayoutMap} {sg : Option GridSettingsMap} {cs : List GridItem}
    (h : occursInItem itemId (GridItem.mk i c l sg (some cs)) = false) :
    occursIn itemId cs = false := by
  simp only [occursInItem.eq_def, Bool.or_eq_false_iff] at h
  exact h.2

/-- If an id occurs nowhere in the tree, it does not sit at the top level. -/
theorem hasId_eq_false_of_occursIn (itemId : ℚ) :
    ∀ list : List GridItem, occursIn itemId list = false → hasId itemId list = false
  | [], _ => rfl
  | item :: rest, h => by
      simp only [occursIn, Bool.or_eq_false_iff] at h
      simp only [hasId, List.any_cons, Bool.or_eq_false_iff]
      exact ⟨by simpa using idOf_ne_of_occursInItem h.1,
        by simpa [hasId] using hasId_eq_false_of_occursIn itemId rest h.2⟩

mutual
/-- `removeRecursive` on a tree not containing the id rebuilds the tree
unchanged. -/
theorem removeRecursive_no_occurs (itemId : ℚ) :
    ∀ list : List GridItem, occursIn itemId list = false →
      removeRecursive itemId list = list
  | [], _ => rfl
  | item :: rest, h => by
      simp only [occursIn, Bool.or_eq_false_iff] at h
      rw [removeRecursive, if_neg (idOf_ne_of_occursInItem h.1),
        removeChildren_no_occurs itemId item h.1,
        removeRecursive_no_occurs itemId rest h.2]

/-- `removeChildren` on an item whose subtree misses the id is the
identity. -/
theorem removeChildren_no_occurs (itemId : ℚ) :
    ∀ item : GridItem, occursInItem itemId item = false →
      removeChildren itemId item = item
  | GridItem.mk i c l sg none, _ => rfl
  | GridItem.mk i c l sg (some cs), h => by
      rw [removeChildren,
        removeRecursive_no_occurs itemId cs (occursIn_children_of_occursInItem h)]
end

/-- `descendUpdate`/`updateAndReflow` on a tree not containing the id
rebuild the tree unchanged. -/
theorem updateAndReflow_no_occurs_aux (itemId : ℚ) (bp : Breakpoint)
    (cb : ItemLayout → ItemLayout) :
    ∀ (n : ℕ) (list : List GridItem), sizeOf list = n →
      occursIn itemId list = false →
      descendUpdate itemId bp cb list = list ∧ updateAndReflow itemId bp cb list = list := by
  intro n
  induction n using Nat.strong_induction_on with
  | _ n ih =>
    intro list hsz hocc
    have hdesc : descendUpdate itemId bp cb list = list := by
      cases list with
      | nil => exact descendUpdate_nil itemId bp cb
      | cons item rest =>
          simp only [occursIn, Bool.or_eq_false_iff] at hocc
          have hszrest : sizeOf rest < n := by
            subst hsz
            simp only [List.cons.sizeOf_spec]
            omega
          rw [descendUpdate_cons, (ih (sizeOf rest) hszrest rest rfl hocc.2).1]
          cases item with
          | mk i c l sg ch =>
            cases ch with
            | none => rw [descendUpdateItem_none]
            | some cs =>
                have hszcs : sizeOf cs < n := by
                  subst hsz
                  simp only [List.cons.sizeOf_spec, GridItem.mk.sizeOf_spec,
                    Option.some.sizeOf_spec]
                  omega
                rw [descendUpdateItem_some, (ih (sizeOf cs) hszcs cs rfl
                  (occursIn_children_of_occursInItem hocc.1)).2]
    refine ⟨hdesc, ?_⟩
    rw [updateAndReflow, if_neg (by simp [hasId_eq_false_of_occursIn itemId list hocc]), hdesc]

/-- `dupWalk` finds nothing in a tree not containing the id. -/
theorem dupWalk_no_occurs (itemId freshId : ℚ) (bp : Breakpoint) :
    ∀ list : List GridItem, occursIn itemId list = false →
      dupWalk itemId freshId bp list = none := by
  intro list
  induction list with
  | nil => intro _; exact dupWalk_nil itemId freshId bp
  | cons item rest ihw =>
      intro h
      simp only [occursIn, Bool.or_eq_false_iff] at h
      rw [dupWalk_cons, if_neg (idOf_ne_of_occursInItem h.1)]
      exact ihw h.2

/-- `descendDup`/`duplicateList` on a tree not containing the id rebuild
the tree unchanged. -/
theorem duplicateList_no_occurs_aux (itemId freshId : ℚ) (bp : Breakpoint) :
    ∀ (n : ℕ) (list : List GridItem), sizeOf list = n →
      occursIn itemId list = false →
      descendDup itemId freshId bp list = list ∧
      duplicateList itemId freshId bp list = list := by
  intro n
  induction n using Nat.strong_induction_on with
  | _ n ih =>
    intro list hsz hocc
    have hdesc : descendDup itemId freshId bp list = list := by
      cases list with
      | nil => exact descendDup_nil itemId freshId bp
      | cons item rest =>
          simp only [occursIn, Bool.or_eq_false_iff] at hocc
          have hszrest : sizeOf rest < n := by
            subst hsz
            simp only [List.cons.sizeOf_spec]
            omega
          rw [descendDup_cons, (ih (sizeOf rest) hszrest rest rfl hocc.2).1]
          cases item with
          | mk i c l sg ch =>
            cases ch with
            | none => rw [descendDupItem_none]
            | some cs =>
                have hszcs : sizeOf cs < n := by
                  subst hsz
                  simp only [List.cons.sizeOf_spec, GridItem.mk.sizeOf_spec,
                    Option.some.sizeOf_spec]
                  omega
                rw [descendDupItem_some, (ih (sizeOf cs) hszcs cs rfl
                  (occursIn_children_of_occursInItem hocc.1)).2]
    refine ⟨hdesc, ?_⟩
    rw [duplicateList, dupWalk_no_occurs itemId freshId bp list hocc, hdesc]

/-- C8.  For every tree and every id occurring nowhere in it, the
locate-then-mutate operations — remove, layout mutation, duplicate — return
the tree unchanged: a safe no-op rather than a failure. -/
theorem missing_id_ops_noop (list : List GridItem) (itemId : ℚ) (bp : Breakpoint)
    (cb : ItemLayout → ItemLayout) (freshId : ℚ)
    (h : occursIn itemId list = false) :
    removeItem list itemId = list ∧
    mutateLayout list itemId bp cb = list ∧
    duplicateItem list itemId freshId bp = list :=
  ⟨removeRecursive_no_occurs itemId list h,
   (updateAndReflow_no_occurs_aux itemId bp cb (sizeOf list) list rfl h).2,
   (duplicateList_no_occurs_aux itemId freshId bp (sizeOf list) list rfl h).2⟩

/-- A small concrete tree: a container (id 1) holding a leaf (id 2), next
to a root leaf (id 3). -/
def sampleTree : List GridItem :=
  [GridItem.mk 1 "bg-blue-500" createLayoutMap (some DEFAULT_GRID_SETTINGS)
    (some [GridItem.mk 2 "bg-red-500" createLayoutMap none none]),
   GridItem.mk 3 "bg-green-500" createLayoutMap none none]

/-- C8 witness: on the sample tree, operating on the absent id 99 leaves
the tree unchanged for all three operations. -/
theorem missing_id_ops_noop_witness :
    removeItem sampleTree 99 = sampleTree ∧
    mutateLayout sampleTree 99 .xs (fun l => { l with colSpan := 5 }) = sampleTree ∧
    duplicateItem sampleTree 99 123 .xs = sampleTree :=
  missing_id_ops_noop sampleTree 99 .xs (fun l => { l with colSpan := 5 }) 123 (by decide)

/-! ## Claim C9: leaf/container dichotomy -/

mutual
/-- The leaf/container dichotomy over a sibling list: every item either has
neither `subGrid` nor `children` (leaf) or both (container), recursively. -/
def dichotomyList : List GridItem → Bool
  | [] => true
  | item :: rest => dichotomyItem item && dichotomyList rest

/-- The leaf/container dichotomy at one item. -/
def dichotomyItem : GridItem → Bool
  | GridItem.mk _ _ _ sg ch =>
      match sg, ch with
      | none, none => true
      | some _, some cs => dichotomyList cs
      | _, _ => false
end

mutual
/-- Every occurrence of `pid` in the tree is a container (vacuously true
when the id is absent). -/
def parentIsContainer (pid : ℚ) : List GridItem → Bool
  | [] => true
  | item :: rest => parentItemOk pid item && parentIsContainer pid rest

/-- Container check for one item and its subtree. -/
def parentItemOk (pid : ℚ) : GridItem → Bool
  | GridItem.mk i _ _ sg ch =>
      (if i == pid then sg.isSome && ch.isSome else true) &&
      (match ch with
       | some cs => parentIsContainer pid cs
       | none => true)
end

/-- C9 (counterexample to the claim as stated).  Adding an item with a
parent id that names a *leaf* attaches `children` to that leaf without
attaching a `subGrid`, breaking the leaf/container dichotomy. -/
theorem addItem_leaf_parent_breaks_dichotomy :
    dichotomyList [GridItem.mk 1 "bg-blue-500" createLayoutMap none none] = true ∧
    dichotomyList
      (addItem [GridItem.mk 1 "bg-blue-500" createLayoutMap none none]
        (some 1) 2 "bg-red-500" .xs) = false := by
  constructor
  · decide
  · decide

/-- Splitting the dichotomy over an append. -/
theorem dichotomyList_append :
    ∀ l1 l2 : List GridItem,
      dichotomyList (l1 ++ l2) = (dichotomyList l1 && dichotomyList l2)
  | [], l2 => by simp [dichotomyList]
  | item :: rest, l2 => by
      rw [List.cons_append]
      simp only [dichotomyList]
      rw [dichotomyList_append rest l2, Bool.and_assoc]

/-- A fresh leaf satisfies the dichotomy. -/
theorem dichotomyItem_newLeaf (freshId : ℚ) (color : String) :
    dichotomyItem (newLeafItem freshId color) = true := rfl

/-- Rewriting a layout entry does not change an item's dichotomy status. -/
theorem dichotomyItem_withLayoutAt (item : GridItem) (bp : Breakpoint)
    (g : ItemLayout → ItemLayout) :
    dichotomyItem (item.withLayoutAt bp g) = dichotomyItem item := by
  cases item
  rfl

/-- Mapping an itemwise dichotomy-preserving function over a sibling list
preserves the list dichotomy. -/
theorem dichotomyList_map (f : GridItem → GridItem)
    (hf : ∀ item, dichotomyItem (f item) = dichotomyItem item) :
    ∀ list : List GridItem, dichotomyList (list.map f) = dichotomyList list
  | [] => rfl
  | item :: rest => by
      simp only [List.map_cons, dichotomyList, hf item, dichotomyList_map f hf rest]

/-- `reflowOrders` rewrites only `order` fields and therefore preserves the
dichotomy verdict. -/
theorem dichotomyList_reflowOrders (list : List GridItem) (bp : Breakpoint) :
    dichotomyList (reflowOrders list bp) = dichotomyList list := by
  unfold reflowOrders
  exact dichotomyList_map _ (fun item => dichotomyItem_withLayoutAt item bp _) list

/-- Dichotomy verdict at a leaf-shaped item. -/
theorem dichotomyItem_leaf (i : ℚ) (c : String) (l : LayoutMap) :
    dichotomyItem (GridItem.mk i c l none none) = true := rfl

/-- Dichotomy verdict at a container-shaped item. -/
theorem dichotomyItem_container (i : ℚ) (c : String) (l : LayoutMap)
    (g : GridSettingsMap) (cs : List GridItem) :
    dichotomyItem (GridItem.mk i c l (some g) (some cs)) = dichotomyList cs := rfl

/-- Dichotomy verdict at an item with children but no sub-grid. -/
theorem dichotomyItem_mixed_children (i : ℚ) (c : String) (l : LayoutMap)
    (cs : List GridItem) :
    dichotomyItem (GridItem.mk i c l none (some cs)) = false := rfl

/-- Dichotomy verdict at an item with a sub-grid but no children. -/
theorem dichotomyItem_mixed_subgrid (i : ℚ) (c : String) (l : LayoutMap)
    (g : GridSettingsMap) :
    dichotomyItem (GridItem.mk i c l (some g) none) = false := rfl

/-- One-step unfolding of `parentItemOk`. -/
theorem parentItemOk_eq (pid i : ℚ) (c : String) (l : LayoutMap)
    (sg : Option GridSettingsMap) (ch : Option (List GridItem)) :
    parentItemOk pid (GridItem.mk i c l sg ch) =
      ((if i == pid then sg.isSome && ch.isSome else true) &&
       (match ch with
        | some cs => parentIsContainer pid cs
        | none => true)) := by
  rw [parentItemOk.eq_def]

mutual
/-- Removing an id preserves the dichotomy of a sibling list. -/
theorem removeRecursive_dichotomy (itemId : ℚ) :
    ∀ list : List GridItem, dichotomyList list = true →
      dichotomyList (removeRecursive itemId list) = true
  | [], _ => rfl
  | item :: rest, h => by
      simp only [dichotomyList, Bool.and_eq_true] at h
      rw [removeRecursive]
      by_cases hid : item.idOf = itemId
      · rw [if_pos hid]
        exact removeRecursive_dichotomy itemId rest h.2
      · rw [if_neg hid]
        simp only [dichotomyList, Bool.and_eq_true]
        exact ⟨removeChildren_dichotomy itemId item h.1,
          removeRecursive_dichotomy itemId rest h.2⟩

/-- Removing an id inside an item's children preserves its dichotomy. -/
theorem removeChildren_dichotomy (itemId : ℚ) :
    ∀ item : GridItem, dichotomyItem item = true →
      dichotomyItem (removeChildren itemId item) = true
  | GridItem.mk i c l none none, _ => rfl
  | GridItem.mk i c l none (some cs), h => by
      rw [dichotomyItem_mixed_children] at h
      exact absurd h (by simp)
  | GridItem.mk i c l (some g) none, h => by
      rw [dichotomyItem_mixed_subgrid] at h
      exact absurd h (by simp)
  | GridItem.mk i c l (some g) (some cs), h => by
      rw [dichotomyItem_container] at h
      show dichotomyItem (GridItem.mk i c l (some g) (some (removeRecursive itemId cs))) = true
      rw [dichotomyItem_container]
      exact removeRecursive_dichotomy itemId cs h
end

mutual
/-- `updateItemRecursive` with a callback that always produces a
dichotomy-respecting item preserves the dichotomy of a sibling list. -/
theorem updateItemRecursive_dichotomy_of_cb (pid : ℚ) (cb : GridItem → GridItem)
    (hcb : ∀ item : GridItem, dichotomyItem (cb item) = true) :
    ∀ list : List GridItem, dichotomyList list = true →
      dichotomyList (updateItemRecursive pid cb list) = true
  | [], _ => rfl
  | item :: rest, h => by
      simp only [dichotomyList, Bool.and_eq_true] at h
      rw [updateItemRecursive]
      simp only [dichotomyList, Bool.and_eq_true]
      refine ⟨?_, updateItemRecursive_dichotomy_of_cb pid cb hcb rest h.2⟩
      by_cases hid : item.idOf = pid
      · rw [if_pos hid]
        exact hcb item
      · rw [if_neg hid]
        exact updateItemChildren_dichotomy_of_cb pid cb hcb item h.1

/-- The children-descent of `updateItemRecursive` with an always-respecting
callback preserves an item's dichotomy. -/
theorem updateItemChildren_dichotomy_of_cb (pid : ℚ) (cb : GridItem → GridItem)
    (hcb : ∀ item : GridItem, dichotomyItem (cb item) = true) :
    ∀ item : GridItem, dichotomyItem item = true →
      dichotomyItem (updateItemChildren pid cb item) = true
  | GridItem.mk i c l none none, _ => rfl
  | GridItem.mk i c l none (some cs), h => by
      rw [dichotomyItem_mixed_children] at h
      exact absurd h (by simp)
  | GridItem.mk i c l (some g) none, h => by
      rw [dichotomyItem_mixed_subgrid] at h
      exact absurd h (by simp)
  | GridItem.mk i c l (some g) (some cs), h => by
      rw [dichotomyItem_container] at h
      show dichotomyItem
        (GridItem.mk i c l (some g) (some (updateItemRecursive pid cb cs))) = true
      rw [dichotomyItem_container]
      exact updateItemRecursive_dichotomy_of_cb pid cb hcb cs h
end

mutual
/-- `updateItemRecursive` with the add-child callback preserves the
dichotomy of a sibling list when every occurrence of the parent id is a
container. -/
theorem updateAdd_list_dichotomy (pid freshId : ℚ) (color : String) (bp : Breakpoint) :
    ∀ list : List GridItem, dichotomyList list = true →
      parentIsContainer pid list = true →
      dichotomyList (updateItemRecursive pid (addChildCb freshId color bp) list) = true
  | [], _, _ => rfl
  | item :: rest, h, hp => by
      simp only [dichotomyList, Bool.and_eq_true] at h
      simp only [parentIsContainer, Bool.and_eq_true] at hp
      rw [updateItemRecursive]
      simp only [dichotomyList, Bool.and_eq_true]
      refine ⟨?_, updateAdd_list_dichotomy pid freshId color bp rest h.2 hp.2⟩
      by_cases hid : item.idOf = pid
      · rw [if_pos hid]
        cases item with
        | mk i c l sg ch =>
          have hp1 := hp.1
          rw [parentItemOk_eq, Bool.and_eq_true] at hp1
          have hbeq : (i == pid) = true := by
            simpa [GridItem.idOf] using hid
          rw [hbeq] at hp1
          simp only [if_true] at hp1
          cases sg with
          | none => simp at hp1
          | some g =>
            cases ch with
            | none => simp at hp1
            | some cs =>
              show dichotomyItem
                (GridItem.mk i c l (some g)
                  (some (reflowOrders (cs ++ [newLeafItem freshId color]) bp))) = true
              rw [dichotomyItem_container, dichotomyList_reflowOrders, dichotomyList_append]
              have hcs : dichotomyList cs = true := by
                have h1 := h.1
                rw [dichotomyItem_container] at h1
                exact h1
              simp [hcs, dichotomyList, dichotomyItem_newLeaf]
      · rw [if_neg hid]
        exact updateAddChildren_dichotomy pid freshId color bp item h.1 hp.1

/-- The children-descent of the add operation preserves an item's
dichotomy. -/
theorem updateAddChildren_dichotomy (pid freshId : ℚ) (color : String) (bp : Breakpoint) :
    ∀ item : GridItem, dichotomyItem item = true → parentItemOk pid item = true →
      dichotomyItem (updateItemChildren pid (addChildCb freshId color bp) item) = true
  | GridItem.mk i c l none none, _, _ => rfl
  | GridItem.mk i c l none (some cs), h, _ => by
      rw [dichotomyItem_mixed_children] at h
      exact absurd h (by simp)
  | GridItem.mk i c l (some g) none, h, _ => by
      rw [dichotomyItem_mixed_subgrid] at h
      exact absurd h (by simp)
  | GridItem.mk i c l (some g) (some cs), h, hp => by
      rw [dichotomyItem_container] at h
      have hpcs : parentIsContainer pid cs = true := by
        rw [parentItemOk_eq, Bool.and_eq_true] at hp
        exact hp.2
      show dichotomyItem (GridItem.mk i c l (some g)
        (some (updateItemRecursive pid (addChildCb freshId color bp) cs))) = true
      rw [dichotomyItem_container]
      exact updateAdd_list_dichotomy pid freshId color bp cs h hpcs
end

/-- The convert-to-grid callback always yields a container respecting the
dichotomy. -/
theorem dichotomyItem_convertCb (item : GridItem) :
    dichotomyItem (convertCb item) = true := by
  cases item
  rfl

/-- `descendUpdate`/`updateAndReflow` preserve the dichotomy. -/
theorem updateAndReflow_dichotomy_aux (itemId : ℚ) (bp : Breakpoint)
    (cb : ItemLayout → ItemLayout) :
    ∀ (n : ℕ) (list : List GridItem), sizeOf list = n → dichotomyList list = true →
      dichotomyList (descendUpdate itemId bp cb list) = true ∧
      dichotomyList (updateAndReflow itemId bp cb list) = true := by
  intro n
  induction n using Nat.strong_induction_on with
  | _ n ih =>
    intro list hsz h
    have hdesc : dichotomyList (descendUpdate itemId bp cb list) = true := by
      cases list with
      | nil => rw [descendUpdate_nil]; rfl
      | cons item rest =>
          simp only [dichotomyList, Bool.and_eq_true] at h
          have hszrest : sizeOf rest < n := by
            subst hsz
            simp only [List.cons.sizeOf_spec]
            omega
          rw [descendUpdate_cons]
          simp only [dichotomyList, Bool.and_eq_true]
          refine ⟨?_, (ih (sizeOf rest) hszrest rest rfl h.2).1⟩
          cases item with
          | mk i c l sg ch =>
            cases sg with
            | none =>
                cases ch with
                | none => rw [descendUpdateItem_none]; exact h.1
                | some cs =>
                    have h1 := h.1
                    rw [dichotomyItem_mixed_children] at h1
                    exact absurd h1 (by simp)
            | some g =>
                cases ch with
                | none =>
                    have h1 := h.1
                    rw [dichotomyItem_mixed_subgrid] at h1
                    exact absurd h1 (by simp)
                | some cs =>
                    have hszcs : sizeOf cs < n := by
                      subst hsz
                      simp only [List.cons.sizeOf_spec, GridItem.mk.sizeOf_spec,
                        Option.some.sizeOf_spec]
                      omega
                    have h1 := h.1
                    rw [dichotomyItem_container] at h1
                    rw [descendUpdateItem_some, dichotomyItem_container]
                    exact (ih (sizeOf cs) hszcs cs rfl h1).2
    refine ⟨hdesc, ?_⟩
    rw [updateAndReflow]
    by_cases hfound : hasId itemId list = true
    · rw [if_pos hfound, dichotomyList_reflowOrders,
        dichotomyList_map _ (fun item => by
          by_cases hh : item.idOf = itemId
          · simp [hh, dichotomyItem_withLayoutAt]
          · simp [hh])]
      exact h
    · rw [if_neg hfound]
      exact hdesc

/-- `dupClone` on a leaf-shaped item. -/
theorem dupClone_none (itemId freshId : ℚ) (bp : Breakpoint) (i : ℚ) (c : String)
    (l : LayoutMap) (sg : Option GridSettingsMap) :
    dupClone itemId freshId bp (GridItem.mk i c l sg none) =
      GridItem.mk freshId c (cloneLayoutMap l) sg none := by
  rw [dupClone.eq_def]

/-- `dupClone` on a container-shaped item. -/
theorem dupClone_some (itemId freshId : ℚ) (bp : Breakpoint) (i : ℚ) (c : String)
    (l : LayoutMap) (sg : Option GridSettingsMap) (cs : List GridItem) :
    dupClone itemId freshId bp (GridItem.mk i c l sg (some cs)) =
      GridItem.mk freshId c (cloneLayoutMap l) sg
        (some (duplicateList itemId freshId bp cs)) := by
  rw [dupClone.eq_def]

/-- `dupWalk` clones dichotomy-respecting items into dichotomy-respecting
clones, and `descendDup`/`duplicateList` preserve the dichotomy. -/
theorem duplicate_dichotomy_aux (itemId freshId : ℚ) (bp : Breakpoint) :
    ∀ (n : ℕ) (list : List GridItem), sizeOf list = n → dichotomyList list = true →
      (∀ clone, dupWalk itemId freshId bp list = some clone →
        dichotomyItem clone = true) ∧
      dichotomyList (descendDup itemId freshId bp list) = true ∧
      dichotomyList (duplicateList itemId freshId bp list) = true := by
  intro n
  induction n using Nat.strong_induction_on with
  | _ n ih =>
    intro list hsz h
    have hwalk : ∀ clone, dupWalk itemId freshId bp list = some clone →
        dichotomyItem clone = true := by
      cases list with
      | nil =>
          intro clone hc
          rw [dupWalk_nil] at hc
          exact absurd hc (by simp)
      | cons item rest =>
          intro clone hc
          simp only [dichotomyList, Bool.and_eq_true] at h
          have hszrest : sizeOf rest < n := by
            subst hsz
            simp only [List.cons.sizeOf_spec]
            omega
          rw [dupWalk_cons] at hc
          by_cases hid : item.idOf = itemId
          · rw [if_pos hid] at hc
            have hclone : clone = dupClone itemId freshId bp item := by
              exact (Option.some.injEq _ _).mp hc |>.symm
            subst hclone
            cases item with
            | mk i c l sg ch =>
              cases sg with
              | none =>
                  cases ch with
                  | none => rw [dupClone_none]; rfl
                  | some cs =>
                      have h1 := h.1
                      rw [dichotomyItem_mixed_children] at h1
                      exact absurd h1 (by simp)
              | some g =>
                  cases ch with
                  | none =>
                      have h1 := h.1
                      rw [dichotomyItem_mixed_subgrid] at h1
                      exact absurd h1 (by simp)
                  | some cs =>
                      have hszcs : sizeOf cs < n := by
                        subst hsz
                        simp only [List.cons.sizeOf_spec, GridItem.mk.sizeOf_spec,
                          Option.some.sizeOf_spec]
                        omega
                      have h1 := h.1
                      rw [dichotomyItem_container] at h1
                      rw [dupClone_some, dichotomyItem_container]
                      exact (ih (sizeOf cs) hszcs cs rfl h1).2.2
          · rw [if_neg hid] at hc
            exact (ih (sizeOf rest) hszrest rest rfl h.2).1 clone hc
    have hdesc : dichotomyList (descendDup itemId freshId bp list) = true := by
      cases list with
      | nil => rw [descendDup_nil]; rfl
      | cons item rest =>
          simp only [dichotomyList, Bool.and_eq_true] at h
          have hszrest : sizeOf rest < n := by
            subst hsz
            simp only [List.cons.sizeOf_spec]
            omega
          rw [descendDup_cons]
          simp only [dichotomyList, Bool.and_eq_true]
          refine ⟨?_, (ih (sizeOf rest) hszrest rest rfl h.2).2.1⟩
          cases item with
          | mk i c l sg ch =>
            cases sg with
            | none =>
                cases ch with
                | none => rw [descendDupItem_none]; exact h.1
                | some cs =>
                    have h1 := h.1
                    rw [dichotomyItem_mixed_children] at h1
                    exact absurd h1 (by simp)
            | some g =>
                cases ch with
                | none =>
                    have h1 := h.1
                    rw [dichotomyItem_mixed_subgrid] at h1
                    exact absurd h1 (by simp)
                | some cs =>
                    have hszcs : sizeOf cs < n := by
                      subst hsz
                      simp only [List.cons.sizeOf_spec, GridItem.mk.sizeOf_spec,
                        Option.some.sizeOf_spec]
                      omega
                    have h1 := h.1
                    rw [dichotomyItem_container] at h1
                    rw [descendDupItem_some, dichotomyItem_container]
                    exact (ih (sizeOf cs) hszcs cs rfl h1).2.2
    refine ⟨hwalk, hdesc, ?_⟩
    rw [duplicateList]
    cases hw : dupWalk itemId freshId bp list with
    | none => exact hdesc
    | some clone =>
        rw [dichotomyList_reflowOrders, dichotomyList_append]
        simp [h, dichotomyList, hwalk clone hw]

/-- C9 (amended).  On a tree satisfying the leaf/container dichotomy, every
tree-mutation operation preserves it — add at the root, add under a parent
id whose every occurrence is a container, remove, duplicate,
convert-to-grid, and layout-field update.  (As stated the claim fails: add
under a parent id naming a leaf attaches children without a sub-grid, see
the counterexample.) -/
theorem tree_ops_preserve_dichotomy (tree : List GridItem)
    (h : dichotomyList tree = true) :
    (∀ (freshId : ℚ) (color : String) (bp : Breakpoint),
      dichotomyList (addItem tree none freshId color bp) = true) ∧
    (∀ (pid freshId : ℚ) (color : String) (bp : Breakpoint),
      parentIsContainer pid tree = true →
      dichotomyList (addItem tree (some pid) freshId color bp) = true) ∧
    (∀ itemId : ℚ, dichotomyList (removeItem tree itemId) = true) ∧
    (∀ (itemId freshId : ℚ) (bp : Breakpoint),
      dichotomyList (duplicateItem tree itemId freshId bp) = true) ∧
    (∀ itemId : ℚ, dichotomyList (convertItemToGrid tree itemId) = true) ∧
    (∀ (itemId : ℚ) (bp : Breakpoint) (field : LayoutField) (value : String),
      dichotomyList (updateItemLayout tree itemId bp field value) = true) := by
  refine ⟨?_, ?_, ?_, ?_, ?_, ?_⟩
  · intro freshId color bp
    show dichotomyList (reflowOrders (tree ++ [newLeafItem freshId color]) bp) = true
    rw [dichotomyList_reflowOrders, dichotomyList_append]
    simp [h, dichotomyList, dichotomyItem_newLeaf]
  · intro pid freshId color bp hp
    exact updateAdd_list_dichotomy pid freshId color bp tree h hp
  · intro itemId
    exact removeRecursive_dichotomy itemId tree h
  · intro itemId freshId bp
    exact (duplicate_dichotomy_aux itemId freshId bp (sizeOf tree) tree rfl h).2.2
  · intro itemId
    exact updateItemRecursive_dichotomy_of_cb itemId convertCb dichotomyItem_convertCb tree h
  · intro itemId bp field value
    exact (updateAndReflow_dichotomy_aux itemId bp (updateItemLayoutCb field value)
      (sizeOf tree) tree rfl h).2

/-- C9 witness: the preservation facts at the sample tree, whose id 1 is a
container. -/
theorem tree_ops_preserve_dichotomy_witness :
    dichotomyList (addItem sampleTree none 7 "bg-pink-500" .md) = true ∧
    dichotomyList (addItem sampleTree (some 1) 7 "bg-pink-500" .md) = true ∧
    dichotomyList (removeItem sampleTree 2) = true ∧
    dichotomyList (duplicateItem sampleTree 2 8 .md) = true ∧
    dichotomyList (convertItemToGrid sampleTree 3) = true ∧
    dichotomyList (updateItemLayout sampleTree 2 .md .colSpan "4") = true := by
  have ht := tree_ops_preserve_dichotomy sampleTree (by decide)
  exact ⟨ht.1 7 "bg-pink-500" .md, ht.2.1 1 7 "bg-pink-500" .md (by decide),
    ht.2.2.1 2, ht.2.2.2.1 2 8 .md, ht.2.2.2.2.1 3, ht.2.2.2.2.2 2 .md .colSpan "4"⟩

/-! ## Code generation (src/lib/grid.ts `generateTailwindCode`) -/

/-- The breakpoint class-name prefixes (`prefixMap` in src/lib/grid.ts). -/
def prefixMap : Breakpoint → String
  | .xs => ""
  | .sm => "sm:"
  | .md => "md:"
  | .lg => "lg:"
  | .xl => "xl:"
  | .x2l => "2xl:"

/-- JavaScript number-to-string on track values and spans: integers print
without a decimal point.  (Non-integral values, unused by the claims, are
rendered as the rational literal.) -/
def jsNumToString (q : ℚ) : String :=
  if q.den = 1 then toString q.num else toString q

/-- The suffix a `Track`'s unit appends after its value. -/
def TrackUnit.suffix : TrackUnit → String
  | .fr => "fr"
  | .px => "px"
  | .rem => "rem"
  | .percent => "%"
  | .auto => "auto"
  | .minContent => "min-content"
  | .maxContent => "max-content"

/-- `getTrackString` from src/lib/grid.ts: content-sized units stand alone,
sized units render as `value ++ unit`, joined with underscores. -/
def getTrackString (tracks : List Track) : String :=
  String.intercalate "_"
    (tracks.map (fun t =>
      match t.unit with
      | .auto => "auto"
      | .minContent => "min-content"
      | .maxContent => "max-content"
      | u => jsNumToString t.value ++ u.suffix))

/-- `isStandardTracks` from src/lib/grid.ts: every track is `1fr`. -/
def isStandardTracks (tracks : List Track) : Bool :=
  tracks.all (fun t => t.unit == TrackUnit.fr && t.value == 1)

/-- The per-breakpoint container-class emission of `generateTailwindCode`:
walk `BREAKPOINT_ORDER` carrying the previously emitted cols/gap/rows
tokens, emitting a prefixed token only when it differs from the previous
one (the `previous === null || previous !== current` test collapses to
"differs from the previous `Option`-valued state").  Non-standard track
lists emit an explicit bracketed track list instead of the plain count. -/
def containerBpClasses (settings : GridSettingsMap) : String :=
  (BREAKPOINT_ORDER.foldl
    (fun (acc : String × Option String × Option ℤ × Option String) bp =>
      let config := settings.get bp
      let pfx := prefixMap bp
      let colsClass :=
        if !(isStandardTracks config.colTracks) then
          "grid-cols-[" ++ getTrackString config.colTracks ++ "]"
        else "grid-cols-" ++ toString config.cols
      let acc1 :=
        if acc.2.1 ≠ some colsClass then
          (acc.1 ++ " " ++ pfx ++ colsClass, some colsClass, acc.2.2.1, acc.2.2.2)
        else acc
      let acc2 :=
        if acc1.2.2.1 ≠ some config.gap then
          (acc1.1 ++ " " ++ pfx ++ "gap-" ++ toString config.gap, acc1.2.1,
            some config.gap, acc1.2.2.2)
        else acc1
      let rowsClass :=
        if !(isStandardTracks config.rowTracks) then
          "grid-rows-[" ++ getTrackString config.rowTracks ++ "]"
        else "grid-rows-" ++ toString config.rows
      if acc2.2.2.2 ≠ some rowsClass then
        (acc2.1 ++ " " ++ pfx ++ rowsClass, acc2.2.1, acc2.2.2.1, some rowsClass)
      else acc2)
    ("", none, none, none)).1

/-- The positional class list one item emits, walking the breakpoints in
order: explicit start/end lines when non-auto, span tokens when implicit
and the span exceeds 1, and the order token when explicit. -/
def itemClassNames (item : GridItem) : List String :=
  (BREAKPOINT_ORDER.map (fun bp =>
    let layout := item.layoutOf.get bp
    let pfx := prefixMap bp
    (if !(isAuto layout.colStart) then [pfx ++ "col-start-" ++ layout.colStart] else []) ++
    (if !(isAuto layout.colEnd) then [pfx ++ "col-end-" ++ layout.colEnd] else []) ++
    (if !(isAuto layout.rowStart) then [pfx ++ "row-start-" ++ layout.rowStart] else []) ++
    (if !(isAuto layout.rowEnd) then [pfx ++ "row-end-" ++ layout.rowEnd] else []) ++
    (if isAuto layout.colStart && isAuto layout.colEnd && decide (1 < layout.colSpan) then
      [pfx ++ "col-span-" ++ jsNumToString layout.colSpan] else []) ++
    (if isAuto layout.rowStart && isAuto layout.rowEnd && decide (1 < layout.rowSpan) then
      [pfx ++ "row-span-" ++ jsNumToString layout.rowSpan] else []) ++
    (if !(isAuto layout.order) then [pfx ++ "order-" ++ layout.order] else []))).flatten

/-- `' '.repeat(indent)`. -/
def spacesOf (n : ℕ) : String := String.mk (List.replicate n ' ')

mutual
/-- `generateGridContainer` from src/lib/grid.ts: emit the container open
tag with its responsive classes, each item, and the close tag.  Nested
containers carry a `w-full h-full` fill marker instead of the root's bare
`grid` marker. -/
def generateGridContainer (classAttr : String) (currentItems : List GridItem)
    (currentSettings : GridSettingsMap) (indent : ℕ) (isRoot : Bool) : String :=
  let spaces := spacesOf indent
  (if isRoot then spaces ++ "<div " ++ classAttr ++ "=\"grid"
   else "\n" ++ spaces ++ "<div " ++ classAttr ++ "=\"grid w-full h-full")
    ++ containerBpClasses currentSettings ++ "\">\n"
    ++ genItems classAttr spaces indent 0 currentItems
    ++ spaces ++ "</div>"
termination_by (sizeOf currentItems, 1)

/-- The `forEach` over the item list, tracking the 0-based index used in
the `<!-- Item n -->` comments. -/
def genItems (classAttr spaces : String) (indent index : ℕ) : List GridItem → String
  | [] => ""
  | item :: rest =>
      genItem classAttr spaces indent index item
        ++ genItems classAttr spaces indent (index + 1) rest
termination_by l => (sizeOf l, 0)

/-- One item's markup: containers (`subGrid` and `children` both present)
recurse with `indent + 4`; leaves emit a comment placeholder, with the
class attribute omitted when no class applies. -/
def genItem (classAttr spaces : String) (indent index : ℕ) : GridItem → String
  | GridItem.mk i c l sg ch =>
      let classNames := itemClassNames (GridItem.mk i c l sg ch)
      let itemIndent := spaces ++ "  "
      match sg, ch with
      | some subGrid, some children =>
          itemIndent ++ "<div " ++ classAttr ++ "=\""
            ++ (String.intercalate " " classNames).trim ++ "\">"
            ++ generateGridContainer classAttr children subGrid (indent + 4) false
            ++ itemIndent ++ "</div>\n"
      | _, _ =>
          if classNames.isEmpty then
            itemIndent ++ "<div>\n" ++ itemIndent ++ "  <!-- Item "
              ++ toString (index + 1) ++ " -->\n" ++ itemIndent ++ "</div>\n"
          else
            itemIndent ++ "<div " ++ classAttr ++ "=\""
              ++ (String.intercalate " " classNames).trim ++ "\">\n"
              ++ itemIndent ++ "  <!-- Item " ++ toString (index + 1) ++ " -->\n"
              ++ itemIndent ++ "</div>\n"
termination_by item => (sizeOf item, 0)
end

/-- `generateTailwindCode` from src/lib/grid.ts. -/
def generateTailwindCode (items : List GridItem) (settings : GridSettingsMap)
    (useClassName : Bool) : String :=
  let classAttr := if useClassName then "className" else "class"
  generateGridContainer classAttr items settings 0 true

/-- C10.  Generating code for an empty root item list yields exactly the
bare container — the open tag with its responsive classes, a newline, and
the close tag — with no item markup between them. -/
theorem generateTailwindCode_empty (settings : GridSettingsMap) (useClassName : Bool) :
    generateTailwindCode [] settings useClassName =
      "<div " ++ (if useClassName then "className" else "class") ++ "=\"grid"
        ++ containerBpClasses settings ++ "\">\n" ++ "</div>" := by
  unfold generateTailwindCode
  rw [generateGridContainer]
  have hnil : genItems (if useClassName then "className" else "class") (spacesOf 0) 0 0 [] =
      "" := by
    rw [genItems.eq_def]
  rw [hnil]
  have hsp : spacesOf 0 = "" := rfl
  rw [hsp]
  simp only [if_true]
  simp [String.append_assoc]

/-! ## Export / import (src/App.tsx `handleExport`, useGridState
`importPreset`) -/

/-- The JSON view of an item as `importPreset` reads it: an `id`, a
`color` and a `layout` may each be absent.  (Any serialized `children` or
`subGrid` are ignored by the import mapping.) -/
structure RawPresetItem where
  id : Option ℚ := none
  color : Option String := none
  layout : Option PartialLayoutMap := none

/-- A parsed top-level configuration object, seen through the keys the
export writes and the import reads. -/
structure PresetObject where
  items : Option (List RawPresetItem) := none
  gridSettings : Option GridSettingsMap := none
  settings : Option GridSettingsMap := none

/-- The fully-present partial view of a concrete `ItemLayout` (its JSON
serialization). -/
def layoutToPartial (l : ItemLayout) : PartialItemLayout :=
  { colStart := some l.colStart, colEnd := some l.colEnd
    rowStart := some l.rowStart, rowEnd := some l.rowEnd
    colSpan := some l.colSpan, rowSpan := some l.rowSpan, order := some l.order }

/-- The fully-present partial view of a concrete `LayoutMap`. -/
def layoutMapToPartial (m : LayoutMap) : PartialLayoutMap :=
  { xs := some (layoutToPartial m.xs), sm := some (layoutToPartial m.sm)
    md := some (layoutToPartial m.md), lg := some (layoutToPartial m.lg)
    xl := some (layoutToPartial m.xl), x2l := some (layoutToPartial m.x2l) }

/-- The JSON view of a serialized `GridItem`. -/
def gridItemToRaw : GridItem → RawPresetItem
  | .mk i c l _ _ => { id := some i, color := some c, layout := some (layoutMapToPartial l) }

/-- `handleExport` from src/App.tsx:
`JSON.stringify({ items, settings: gridSettings })`.  The serialized object
carries the top-level keys `items` and `settings` — and no `gridSettings`
key. -/
def handleExport (items : List GridItem) (gridSettings : GridSettingsMap) : PresetObject :=
  { items := some (items.map gridItemToRaw)
    gridSettings := none
    settings := some gridSettings }

/-- `importPreset` from src/hooks/useGridState.ts: reject (reporting an
error, state unchanged — modelled as `none`) unless both `items` and
`gridSettings` are present; otherwise rebuild each item with
`id ?? Date.now() + index`, `color ?? COLORS[index % COLORS.length]` and a
sanitized layout, and clone the grid settings. -/
def importPreset (preset : PresetObject) (now : ℚ) :
    Option (List GridItem × GridSettingsMap) :=
  match preset.items, preset.gridSettings with
  | some rawItems, some gs =>
      some
        (rawItems.enum.map (fun p =>
          GridItem.mk (p.2.id.getD (now + p.1))
            (p.2.color.getD (COLORS.getD (p.1 % COLORS.length) ""))
            (sanitizeLayoutMap p.2.layout) none none),
         cloneGridSettings gs)
  | _, _ => none

/-- C3.  The export/import round trip always fails: the export writes the
grid settings under the top-level key `settings`, while the import demands
a `gridSettings` key and rejects the whole configuration ("Invalid
preset"), leaving the state unchanged — so re-importing an exported
configuration never reproduces the tree. -/
theorem export_import_roundtrip_rejected (items : List GridItem)
    (gridSettings : GridSettingsMap) (now : ℚ) :
    importPreset (handleExport items gridSettings) now = none := rfl
